import Mathlib

/-!
Shallow embedding of the killer-metrics metrics backend (Python/FastAPI/SQLAlchemy)
for checking its natural-language specification.

Sources embedded here:
  - src/metrics-backend/app/db/helpers.py          (grain order, grain resolution, time buckets)
  - src/metrics-backend/app/api/routes/v1/metrics.py (set hashing, CSV ingestion pipeline)
  - src/metrics-backend/app/api/routes/v1/utils.py   (filter and group-by join construction)
  - src/metrics-backend/app/api/routes/v1/queries.py (filter pair building, output ordering)
  - src/metrics-backend/app/api/schemas/queries.py   (DimensionFilter payload schema)
  - src/metrics-backend/alembic/versions/0004_rebuild_metrics_schema.py (constraints)

Machine integers are modelled as Nat / Int, SQL rows as Lean structures, tables as
lists of rows, and the one multi-statement ingestion transaction as an Except value
whose error branch restores the pre-transaction state (mirroring session.rollback).
-/

namespace KillerMetrics

/-! String primitives. The embedding implements the Python string operations it
needs by structural recursion over the character list, so that every definition can
be evaluated on concrete inputs inside proofs (the corresponding core String
functions are compiled by well-founded recursion which the kernel cannot unfold). -/

/-- Python str.lower for ASCII letters. -/
def charToLower (c : Char) : Char :=
  if 65 ≤ c.toNat ∧ c.toNat ≤ 90 then Char.ofNat (c.toNat + 32) else c

/-- Python str.upper for ASCII letters. -/
def charToUpper (c : Char) : Char :=
  if 97 ≤ c.toNat ∧ c.toNat ≤ 122 then Char.ofNat (c.toNat - 32) else c

/-- Python str.lower. -/
def pyToLower (s : String) : String := String.mk (s.data.map charToLower)

/-- Python str.strip: drop leading and trailing whitespace. -/
def pyTrim (s : String) : String :=
  String.mk ((s.data.dropWhile Char.isWhitespace).reverse.dropWhile Char.isWhitespace).reverse

/-- The numeric value of a decimal digit character. -/
def digitVal? (c : Char) : Option Nat :=
  if 48 ≤ c.toNat ∧ c.toNat ≤ 57 then some (c.toNat - 48) else none

/-- Parse a digit run into a number; none on a non-digit. -/
def digitsToNat : List Char → Nat → Option Nat
  | [], acc => some acc
  | c :: cs, acc =>
    match digitVal? c with
    | some d => digitsToNat cs (acc * 10 + d)
    | none => none

/-- Parse a non-empty digit string. -/
def pyToNat? (s : String) : Option Nat :=
  if s.data.isEmpty then none else digitsToNat s.data 0

/-- Python int(...) over a signed digit string. -/
def pyToInt? (s : String) : Option Int :=
  match s.data with
  | '-' :: rest =>
    if rest.isEmpty then none else (digitsToNat rest 0).map (fun n => -(n : Int))
  | '+' :: rest =>
    if rest.isEmpty then none else (digitsToNat rest 0).map (fun n => (n : Int))
  | l => if l.isEmpty then none else (digitsToNat l 0).map (fun n => (n : Int))

/-- Split a character list on a separator character. -/
def splitOnChar (sep : Char) : List Char → List (List Char)
  | [] => [[]]
  | c :: cs =>
    let r := splitOnChar sep cs
    if c = sep then [] :: r
    else
      match r with
      | h :: t => (c :: h) :: t
      | [] => [[c]]

/-- Python s.split(sep) for a one-character separator. -/
def pySplitOn (sep : Char) (s : String) : List String :=
  (splitOnChar sep s.data).map String.mk

/-- Python sep.join(parts). -/
def pyIntercalate (sep : String) : List String → String
  | [] => ""
  | [x] => x
  | x :: y :: xs => x ++ sep ++ pyIntercalate sep (y :: xs)

/-- UTF-8 encoding of one character. -/
def charUtf8 (c : Char) : List Nat :=
  let n := c.toNat
  if n < 128 then [n]
  else if n < 2048 then [192 + n / 64, 128 + n % 64]
  else if n < 65536 then [224 + n / 4096, 128 + n / 64 % 64, 128 + n % 64]
  else [240 + n / 262144, 128 + n / 4096 % 64, 128 + n / 64 % 64, 128 + n % 64]

/-- UTF-8 encoding of a string, modelling str.encode("utf-8"). -/
def utf8Bytes (s : String) : List Nat := s.data.flatMap charUtf8

/-- Lexicographic strict comparison of character lists by code point, the comparison
Python uses on strings. -/
def charsLtB : List Char → List Char → Bool
  | [], [] => false
  | [], _ :: _ => true
  | _ :: _, [] => false
  | a :: as, b :: bs => if a < b then true else if a = b then charsLtB as bs else false

/-- Python string strict comparison. -/
def strLt (a b : String) : Prop := charsLtB a.data b.data = true

instance : DecidableRel strLt := fun a b =>
  inferInstanceAs (Decidable (charsLtB a.data b.data = true))

/-- Python string comparison, total by totality of the code point order. -/
def strLe (a b : String) : Prop := ¬ strLt b a

instance : DecidableRel strLe := fun a b => inferInstanceAs (Decidable (¬ strLt b a))

/-- GRAIN_ORDER from app/db/helpers.py line 13: grains from finest to coarsest. -/
def GRAIN_ORDER : List String := ["30m", "hour", "day", "week", "biweek", "month", "quarter"]

/-- Rank of a grain: its index in GRAIN_ORDER (GRAIN_RANK, helpers.py line 14);
none when the grain is unsupported. -/
def grainRank (g : String) : Option Nat := GRAIN_ORDER.indexOf? g

/-- GRAIN_RANK.get(grain, 999) lookup used by select_source_grain (helpers.py line 118). -/
def grainRankD (g : String) : Nat := (grainRank g).getD 999

/-- normalize_grain from helpers.py lines 17-19: strip then lowercase. -/
def normalize_grain (g : String) : String := pyToLower (pyTrim g)

/-- is_supported_grain from helpers.py lines 22-24. -/
def is_supported_grain (g : String) : Bool := (grainRank (normalize_grain g)).isSome

/-- Python max(xs, key=fst) over a non-empty list of (rank, grain) pairs: iterates left
to right keeping the current element and replacing it only on a strictly larger key,
hence the first element attaining the maximum is returned. Returns none on []. -/
def pyMaxByFst : List (Nat × String) → Option (Nat × String)
  | [] => none
  | x :: xs => some (xs.foldl (fun acc y => if acc.1 < y.1 then y else acc) x)

/-- Python min(xs, key=fst): first element attaining the minimum key. -/
def pyMinByFst : List (Nat × String) → Option (Nat × String)
  | [] => none
  | x :: xs => some (xs.foldl (fun acc y => if y.1 < acc.1 then y else acc) x)

/-- select_source_grain from helpers.py lines 114-123. The Python argument is a set;
it is modelled here as the list of its iteration order, so that order independence can
be stated rather than assumed. -/
def select_source_grain (grains : List String) (requested_grain : String) : String :=
  if grains.isEmpty then requested_grain
  else
    let requested_rank := grainRankD (normalize_grain requested_grain)
    let ranked := grains.map (fun g => (grainRankD (normalize_grain g), g))
    let candidates := ranked.filter (fun p => p.1 ≤ requested_rank)
    match pyMaxByFst candidates with
    | some best => best.2
    | none => ((pyMinByFst ranked).getD (0, requested_grain)).2

/-! SHA-256 over byte lists, modelling hashlib.sha256(...).hexdigest() used by
_build_set_hash (metrics.py lines 245-247). 32-bit words are Nat values reduced
modulo 2 ^ 32 after every arithmetic step. -/

/-- Word size modulus for SHA-256 (2 ^ 32). -/
def w32 : Nat := 4294967296

/-- 32-bit right rotation. -/
def rotr32 (n x : Nat) : Nat := ((x >>> n) + ((x <<< (32 - n)) % w32)) % w32

/-- 32-bit bitwise complement. -/
def not32 (x : Nat) : Nat := w32 - 1 - x

/-- The 64 SHA-256 round constants. -/
def sha256K : List Nat :=
  [1116352408, 1899447441, 3049323471, 3921009573, 961987163, 1508970993,
   2453635748, 2870763221, 3624381080, 310598401, 607225278, 1426881987,
   1925078388, 2162078206, 2614888103, 3248222580, 3835390401, 4022224774,
   264347078, 604807628, 770255983, 1249150122, 1555081692, 1996064986,
   2554220882, 2821834349, 2952996808, 3210313671, 3336571891, 3584528711,
   113926993, 338241895, 666307205, 773529912, 1294757372, 1396182291,
   1695183700, 1986661051, 2177026350, 2456956037, 2730485921, 2820302411,
   3259730800, 3345764771, 3516065817, 3600352804, 4094571909, 275423344,
   430227734, 506948616, 659060556, 883997877, 958139571, 1322822218,
   1537002063, 1747873779, 1955562222, 2024104815, 2227730452, 2361852424,
   2428436474, 2756734187, 3204031479, 3329325298]

/-- The SHA-256 initial hash state. -/
def sha256H0 : List Nat :=
  [1779033703, 3144134277, 1013904242, 2773480762, 1359893119, 2600822924, 528734635, 1541459225]

/-- Split a padded byte list into big-endian 32-bit words. -/
def bytesToWords : List Nat → List Nat
  | b0 :: b1 :: b2 :: b3 :: rest => (((b0 * 256 + b1) * 256 + b2) * 256 + b3) :: bytesToWords rest
  | _ => []

/-- One step of the SHA-256 message schedule extension. -/
def sha256Extend (w : Array Nat) (i : Nat) : Array Nat :=
  let x15 := w.getD (i - 15) 0
  let x2 := w.getD (i - 2) 0
  let s0 := (rotr32 7 x15 ^^^ rotr32 18 x15) ^^^ (x15 >>> 3)
  let s1 := (rotr32 17 x2 ^^^ rotr32 19 x2) ^^^ (x2 >>> 10)
  w.push ((w.getD (i - 16) 0 + s0 + w.getD (i - 7) 0 + s1) % w32)

/-- Extend 16 message words to the full 64-entry schedule. -/
def sha256Schedule (ws : List Nat) : Array Nat :=
  (List.range 48).foldl (fun w j => sha256Extend w (16 + j)) ws.toArray

/-- One SHA-256 compression round. -/
def sha256Round (st : List Nat) (kw : Nat × Nat) : List Nat :=
  match st with
  | [a, b, c, d, e, f, g, h] =>
    let s1 := (rotr32 6 e ^^^ rotr32 11 e) ^^^ rotr32 25 e
    let ch := (e &&& f) ^^^ (not32 e &&& g)
    let temp1 := (h + s1 + ch + kw.1 + kw.2) % w32
    let s0 := (rotr32 2 a ^^^ rotr32 13 a) ^^^ rotr32 22 a
    let maj := ((a &&& b) ^^^ (a &&& c)) ^^^ (b &&& c)
    let temp2 := (s0 + maj) % w32
    [(temp1 + temp2) % w32, a, b, c, (d + temp1) % w32, e, f, g]
  | other => other

/-- Compress one 64-byte block into the running hash state. -/
def sha256Block (h : List Nat) (block : List Nat) : List Nat :=
  let wArr := sha256Schedule (bytesToWords block)
  let st := (sha256K.zip wArr.toList).foldl
    (fun st kw => sha256Round st (kw.2, kw.1)) h
  (h.zip st).map (fun p => (p.1 + p.2) % w32)

/-- Split a byte list into 64-byte blocks; the fuel argument bounds the number of
blocks so the recursion is structural. -/
def chunk64Go : Nat → List Nat → List (List Nat)
  | 0, _ => []
  | _, [] => []
  | fuel + 1, b :: bs => (b :: bs).take 64 :: chunk64Go fuel ((b :: bs).drop 64)

/-- Split a byte list into 64-byte blocks. -/
def chunk64 (l : List Nat) : List (List Nat) := chunk64Go l.length l

/-- SHA-256 padding: append 0x80, zero fill to 56 mod 64, then the 64-bit big-endian
bit length. -/
def sha256Pad (msg : List Nat) : List Nat :=
  let len := msg.length
  let padLen := (55 + 64 - len % 64) % 64
  let bitLen := len * 8
  msg ++ 0x80 :: List.replicate padLen 0 ++
    (List.range 8).map (fun i => bitLen >>> (8 * (7 - i)) % 256)

/-- SHA-256 digest of a byte list as eight 32-bit words. -/
def sha256Words (msg : List Nat) : List Nat :=
  (chunk64 (sha256Pad msg)).foldl sha256Block sha256H0

/-- Lowercase hexadecimal digit characters. -/
def hexChar (n : Nat) : Char :=
  if n < 10 then Char.ofNat (48 + n) else Char.ofNat (87 + n)

/-- Render one 32-bit word as eight lowercase hex characters. -/
def wordToHex (x : Nat) : List Char :=
  (List.range 8).map (fun i => hexChar (x >>> (4 * (7 - i)) % 16))

/-- hashlib.sha256(payload.encode("utf-8")).hexdigest() for a string payload. -/
def sha256Hex (payload : String) : String :=
  String.mk ((sha256Words (utf8Bytes payload)).foldr
    (fun wd acc => wordToHex wd ++ acc) [])

/-- _build_set_hash from metrics.py lines 245-247: SHA-256 hex digest of the
key=value strings joined with a vertical bar. -/
def build_set_hash (pairs : List (String × String)) : String :=
  sha256Hex (pyIntercalate "|" (pairs.map (fun p => p.1 ++ "=" ++ p.2)))

/-- Ordering of (dimension_key, value) pairs by dimension key, the sort key used at
metrics.py line 655. -/
def keyLe (a b : String × String) : Prop := strLe a.1 b.1

instance : DecidableRel keyLe := fun a b => inferInstanceAs (Decidable (strLe a.1 b.1))

/-- sorted(pairs, key=lambda item: item[0]) at metrics.py line 655: the Python sort is
stable, modelled by insertion sort, which is also stable. -/
def sortPairsByKey (pairs : List (String × String)) : List (String × String) :=
  List.insertionSort keyLe pairs

/-- The set hash computed for one ingested row (metrics.py lines 655-657): the pairs
sorted by dimension key, then hashed. -/
def row_set_hash (pairs : List (String × String)) : String :=
  build_set_hash (sortPairsByKey pairs)

/-! Time bucketing (helpers.py lines 27-39). Timestamps are modelled as Int minutes
since 1970-01-01 00:00 UTC; the Postgres primitives date_part, date_trunc and
extract(week) are modelled over that representation with a proleptic Gregorian
calendar and ISO-8601 week numbering. -/

/-- Minutes in one week. -/
def MINUTES_PER_WEEK : Int := 10080

/-- Days since 1970-01-01 for a Gregorian calendar date (Hinnant day-count algorithm). -/
def daysFromCivil (y m d : Int) : Int :=
  let y1 := if m ≤ 2 then y - 1 else y
  let era := Int.ediv y1 400
  let yoe := y1 - era * 400
  let mp := Int.emod (m + 9) 12
  let doy := Int.ediv (153 * mp + 2) 5 + d - 1
  let doe := yoe * 365 + Int.ediv yoe 4 - Int.ediv yoe 100 + doy
  era * 146097 + doe - 719468

/-- Gregorian calendar date (year, month, day) for a day count since 1970-01-01. -/
def civilFromDays (z0 : Int) : Int × Int × Int :=
  let z := z0 + 719468
  let era := Int.ediv z 146097
  let doe := z - era * 146097
  let yoe := Int.ediv (doe - Int.ediv doe 1460 + Int.ediv doe 36524 - Int.ediv doe 146096) 365
  let y := yoe + era * 400
  let doy := doe - (365 * yoe + Int.ediv yoe 4 - Int.ediv yoe 100)
  let mp := Int.ediv (5 * doy + 2) 153
  let d := doy - Int.ediv (153 * mp + 2) 5 + 1
  let m := mp + (if mp < 10 then 3 else -9)
  (if m ≤ 2 then y + 1 else y, m, d)

/-- Day index of a minute timestamp. -/
def epochDay (t : Int) : Int := Int.ediv t 1440

/-- ISO weekday of a day count, Monday = 1 .. Sunday = 7 (1970-01-01 was a Thursday). -/
def isoWeekday (days : Int) : Int := Int.emod (days + 3) 7 + 1

/-- Number of ISO weeks (52 or 53) in an ISO year. -/
def isoWeeksInYear (y : Int) : Int :=
  let p := fun (yy : Int) => Int.emod (yy + Int.ediv yy 4 - Int.ediv yy 100 + Int.ediv yy 400) 7
  52 + (if p y = 4 ∨ p (y - 1) = 3 then 1 else 0)

/-- Ordinal day of the year (1-based) for a day count. -/
def dayOfYear (days : Int) : Int :=
  match civilFromDays days with
  | (y, _, _) => days - daysFromCivil y 1 1 + 1

/-- ISO-8601 week number of a day count, modelling Postgres extract(week from ts). -/
def isoWeekNumber (days : Int) : Int :=
  let y := (civilFromDays days).1
  let w := Int.ediv (dayOfYear days - isoWeekday days + 10) 7
  if w < 1 then isoWeeksInYear (y - 1)
  else if isoWeeksInYear y < w then 1
  else w

/-- Postgres date_part(minute, ts): the minute component of the hour. -/
def datePartMinute (t : Int) : Int := Int.emod t 60

/-- Postgres date_trunc(hour, ts). -/
def dateTruncHour (t : Int) : Int := t - Int.emod t 60

/-- Postgres date_trunc(day, ts). -/
def dateTruncDay (t : Int) : Int := t - Int.emod t 1440

/-- Postgres date_trunc(week, ts): midnight of the Monday of the ISO week. -/
def dateTruncWeek (t : Int) : Int :=
  (epochDay t - Int.emod (epochDay t + 3) 7) * 1440

/-- Postgres date_trunc(month, ts). -/
def dateTruncMonth (t : Int) : Int :=
  match civilFromDays (epochDay t) with
  | (y, m, _) => daysFromCivil y m 1 * 1440

/-- Postgres date_trunc(quarter, ts). -/
def dateTruncQuarter (t : Int) : Int :=
  match civilFromDays (epochDay t) with
  | (y, m, _) => daysFromCivil y (3 * Int.ediv (m - 1) 3 + 1) 1 * 1440

/-- Postgres extract(week from ts): ISO week number of the timestamp. -/
def extractWeek (t : Int) : Int := isoWeekNumber (epochDay t)

/-- Postgres date_trunc(unit, ts) for the calendar units build_time_bucket passes
through (hour, day, week, month, quarter); other units never reach this call on the
embedded code paths and are modelled as the identity. -/
def dateTrunc (unit : String) (t : Int) : Int :=
  if unit = "hour" then dateTruncHour t
  else if unit = "day" then dateTruncDay t
  else if unit = "week" then dateTruncWeek t
  else if unit = "month" then dateTruncMonth t
  else if unit = "quarter" then dateTruncQuarter t
  else t

/-- build_time_bucket from helpers.py lines 27-39: the 30m grain adds
floor(minute / 30) half-hour intervals to the hour truncation; the biweek grain
subtracts extract(week) mod 2 weeks from the week truncation; every other grain is
passed to date_trunc. -/
def build_time_bucket (grain : String) (t : Int) : Int :=
  let normalized := normalize_grain grain
  if normalized = "30m" then
    dateTruncHour t + Int.ediv (datePartMinute t) 30 * 30
  else if normalized = "biweek" then
    dateTruncWeek t - Int.emod (extractWeek t) 2 * MINUTES_PER_WEEK
  else dateTrunc normalized t

/-! Catalog resolution (helpers.py lines 52-102) and shared key dedup. -/

/-- list(dict.fromkeys(keys)): dedup keeping the first occurrence of each element,
in first-occurrence order. -/
def dedupFirstGo {α : Type} [DecidableEq α] (seen : List α) : List α → List α
  | [] => []
  | x :: xs => if x ∈ seen then dedupFirstGo seen xs else x :: dedupFirstGo (x :: seen) xs

/-- list(dict.fromkeys(keys)) continued: the exported entry point. -/
def dedupFirst {α : Type} [DecidableEq α] (l : List α) : List α := dedupFirstGo [] l

/-- Decidable equality of Except values, for evaluating outcomes on concrete inputs. -/
instance {ε α : Type} [DecidableEq ε] [DecidableEq α] : DecidableEq (Except ε α)
  | .ok x, .ok y => if h : x = y then isTrue (by rw [h]) else isFalse (by simp [h])
  | .ok _, .error _ => isFalse (by simp)
  | .error _, .ok _ => isFalse (by simp)
  | .error e, .error f => if h : e = f then isTrue (by rw [h]) else isFalse (by simp [h])

/-- A fastapi HTTPException, carrying status code and detail string. -/
structure HTTPError where
  status_code : Nat
  detail : String
deriving DecidableEq, Repr

/-- One metric_definition row (db/schema.py lines 33-55). -/
structure MetricDefRow where
  metric_id : Nat
  metric_key : String
  metric_name : String
  metric_description : Option String
  metric_type : String
  unit : Option String
  directionality : Option String
  aggregation : String
deriving DecidableEq, Repr

/-- One dimension_definition row (db/schema.py lines 58-77). -/
structure DimensionDefRow where
  dimension_id : Nat
  dimension_key : String
  dimension_name : String
deriving DecidableEq, Repr

/-- resolve_metric_ids from helpers.py lines 52-77: dedup the keys, 400 on an empty
request, select the matching catalog rows, and 404 listing every missing key. On
success the (metric_key, metric_id, aggregation) rows cover every requested key. -/
def resolve_metric_ids (metricDefs : List MetricDefRow) (metric_keys : List String) :
    Except HTTPError (List (String × Nat × String)) :=
  let keys := dedupFirst metric_keys
  if keys.isEmpty then .error ⟨400, "metric_keys required"⟩
  else
    let rows := metricDefs.filter (fun r => keys.contains r.metric_key)
    let found := rows.map (fun r => (r.metric_key, r.metric_id, r.aggregation))
    let missing := keys.filter (fun k => !(found.any (fun f => f.1 = k)))
    if missing.isEmpty then .ok found
    else .error ⟨404, "metric_key not found: " ++ pyIntercalate ", " missing⟩

/-- resolve_dimension_ids from helpers.py lines 80-102: like the metric resolver but
an empty request returns an empty mapping instead of an error. -/
def resolve_dimension_ids (dimensionDefs : List DimensionDefRow)
    (dimension_keys : List String) : Except HTTPError (List (String × Nat)) :=
  let keys := dedupFirst dimension_keys
  if keys.isEmpty then .ok []
  else
    let rows := dimensionDefs.filter (fun r => keys.contains r.dimension_key)
    let found := rows.map (fun r => (r.dimension_key, r.dimension_id))
    let missing := keys.filter (fun k => !(found.any (fun f => f.1 = k)))
    if missing.isEmpty then .ok found
    else .error ⟨404, "dimension_key not found: " ++ pyIntercalate ", " missing⟩

/-! Relational rows shared by the query model and the ingestion model
(db/schema.py, constraints from alembic versions/0004_rebuild_metrics_schema.py). -/

/-- A parsed numeric cell: mantissa and decimal scale, representing
mantissa / 10 ^ scale. This models the finite float values the pandas numeric parser
yields for plain decimal literals. -/
structure Decimal where
  mantissa : Int
  scale : Nat
deriving DecidableEq, Repr

/-- One dimension_value row. -/
structure DimValueRow where
  value_id : Nat
  dimension_id : Nat
  value : String
deriving DecidableEq, Repr

/-- One dimension_set row. -/
structure DimSetRow where
  set_id : Nat
  set_hash : String
deriving DecidableEq, Repr

/-- One dimension_set_value join row; dimension_id is denormalized onto the join. -/
structure SetValueRow where
  set_id : Nat
  value_id : Nat
  dimension_id : Nat
deriving DecidableEq, Repr

/-- One metric_series row. -/
structure SeriesRow where
  series_id : Nat
  metric_id : Nat
  grain : String
  set_id : Nat
deriving DecidableEq, Repr

/-- One metric_observation row. -/
structure ObservationRow where
  observation_id : Nat
  series_id : Nat
  time_start_ts : Int
  time_end_ts : Option Int
  value_num : Decimal
  sample_size : Option Int
  is_estimated : Bool
deriving DecidableEq, Repr

/-! The filter payload bug surface: schemas/queries.py lines 9-13 declare
DimensionFilter with fields dimension_key and values, while
queries.py lines 456-462 (_build_filter_pairs) reads flt.value_ids and
flt.dimension_id. Python attribute access on the pydantic object is modelled
explicitly so the resulting AttributeError is visible. -/

/-- DimensionFilter from schemas/queries.py lines 9-13. -/
structure DimensionFilter where
  dimension_key : String
  values : List String
deriving DecidableEq, Repr

/-- A Python value as far as _build_filter_pairs needs one. -/
inductive PyValue where
  | pyInt (n : Int)
  | pyStr (s : String)
  | pyStrList (vs : List String)
deriving DecidableEq, Repr

/-- Python attribute lookup on a DimensionFilter object: the pydantic model declares
exactly the fields dimension_key and values, so any other name is absent. -/
def DimensionFilter.getattr (f : DimensionFilter) : String → Option PyValue
  | "dimension_key" => some (.pyStr f.dimension_key)
  | "values" => some (.pyStrList f.values)
  | _ => none

/-- Attribute access, raising AttributeError for an absent attribute. -/
def pyAttr (f : DimensionFilter) (name : String) : Except String PyValue :=
  match f.getattr name with
  | some v => .ok v
  | none => .error ("AttributeError: DimensionFilter object has no attribute " ++ name)

/-- int(x) on a Python value. -/
def pyToInt : PyValue → Except String Int
  | .pyInt n => .ok n
  | .pyStr s =>
    match s.toInt? with
    | some n => .ok n
    | none => .error "ValueError: invalid literal for int"
  | .pyStrList _ => .error "TypeError: int argument must be a string or a number"

/-- Iterating a Python value. -/
def pyIter : PyValue → Except String (List PyValue)
  | .pyStrList vs => .ok (vs.map .pyStr)
  | .pyStr s => .ok (s.toList.map (fun c => .pyStr (String.mk [c])))
  | .pyInt _ => .error "TypeError: int object is not iterable"

/-- _build_filter_pairs from queries.py lines 456-462, the only producer of the
dimension/value id pairs consumed by apply_dimension_pairs on the timeseries,
aggregate and top-K endpoints: for each filter it iterates flt.value_ids and appends
(int(flt.dimension_id), int(value_id)). -/
def build_filter_pairs : List DimensionFilter → Except String (List (Int × Int))
  | [] => .ok []
  | flt :: rest => do
    let vids ← pyAttr flt "value_ids"
    let items ← pyIter vids
    let pairs ← items.mapM (fun v => do
      let d ← pyAttr flt "dimension_id"
      let di ← pyToInt d
      let vi ← pyToInt v
      pure (di, vi))
    let restPairs ← build_filter_pairs rest
    pure (pairs ++ restPairs)

/-! Relational semantics of the dynamically composed joins (utils.py). A query row is
an observation joined to its series plus the group-by value columns accumulated so
far; each join step is an inner join, modelled as a bind over matching rows. -/

/-- One tuple of the composed query. -/
structure QueryRow where
  obs : ObservationRow
  series : SeriesRow
  groupValues : List String
deriving DecidableEq, Repr

/-- The base select of post_timeseries / post_aggregate (queries.py lines 200-215 and
344-358): observations inner-joined to their series, restricted to the metric ids,
the resolved source grain and the half-open time range. -/
def baseQueryRows (obs : List ObservationRow) (series : List SeriesRow)
    (metricIds : List Nat) (grain : String) (startT endT : Int) : List QueryRow :=
  obs.flatMap fun o =>
    (series.filter fun s =>
      decide (s.series_id = o.series_id ∧ s.metric_id ∈ metricIds ∧ s.grain = grain ∧
        startT ≤ o.time_start_ts ∧ o.time_start_ts < endT)).map fun s => ⟨o, s, []⟩

/-- One group-by join step (utils.py lines 162-175): an inner join to
dimension_set_value on the set id constrained to the grouped dimension id, then an
inner join to dimension_value on the value id, projecting the value column. -/
def groupJoinStep (setValues : List SetValueRow) (dimValues : List DimValueRow)
    (rows : List QueryRow) (dimId : Nat) : List QueryRow :=
  rows.flatMap fun r =>
    (setValues.filter fun sv =>
      decide (sv.set_id = r.series.set_id ∧ sv.dimension_id = dimId)).flatMap fun sv =>
      (dimValues.filter fun dv => decide (dv.value_id = sv.value_id)).map fun dv =>
        ⟨r.obs, r.series, r.groupValues ++ [dv.value]⟩

/-- apply_group_by join semantics (utils.py lines 140-181): one pair of inner joins
per grouped dimension id, folded in request order. -/
def apply_group_by (setValues : List SetValueRow) (dimValues : List DimValueRow)
    (dimIds : List Nat) (rows : List QueryRow) : List QueryRow :=
  dimIds.foldl (groupJoinStep setValues dimValues) rows

/-- grouped_ids from apply_dimension_pairs (utils.py lines 70-72): pairs grouped by
dimension id, dimension ids in first-occurrence order, values deduplicated. -/
def groupPairs (pairs : List (Nat × Nat)) : List (Nat × List Nat) :=
  (dedupFirst (pairs.map (fun p => p.1))).map fun d =>
    (d, dedupFirst ((pairs.filter (fun p => p.1 = d)).map (fun p => p.2)))

/-- One filter join step (utils.py lines 73-81): an inner join to dimension_set_value
on the set id, constrained to the filtered dimension id with the value id in the
accepted list. -/
def filterJoinStep (setValues : List SetValueRow) (rows : List QueryRow)
    (dimId : Nat) (valueIds : List Nat) : List QueryRow :=
  rows.flatMap fun r =>
    (setValues.filter fun sv =>
      decide (sv.set_id = r.series.set_id ∧ sv.dimension_id = dimId ∧
        sv.value_id ∈ valueIds)).map fun _ => r

/-- apply_dimension_pairs join semantics (utils.py lines 61-82): exactly one
dimension-set-value join per distinct filtered dimension id. -/
def apply_dimension_pairs (setValues : List SetValueRow) (pairs : List (Nat × Nat))
    (rows : List QueryRow) : List QueryRow :=
  (groupPairs pairs).foldl (fun acc g => filterJoinStep setValues acc g.1 g.2) rows

/-! Deterministic output ordering (queries.py lines 105-121, _finalize_series). -/

/-- One output point of a timeseries entry. -/
structure SeriesPoint where
  time_start_ts : Int
  value : Decimal
deriving DecidableEq, Repr

/-- One entry of the series map built by _append_timeseries_rows. -/
structure SeriesEntry where
  metric_key : String
  dimensions : List (String × String)
  points : List SeriesPoint
deriving DecidableEq, Repr

/-- item.dimensions.get(key, default ""): association lookup. -/
def lookupDim (dims : List (String × String)) (k : String) : String :=
  ((dims.find? (fun p => p.1 = k)).map (fun p => p.2)).getD ""

/-- metric_order.get(metric_key, 0) where metric_order maps each requested key to its
enumerate index: for duplicate keys the dict keeps the last index. -/
def metricOrderIdx (metric_keys : List String) (k : String) : Nat :=
  ((metric_keys.reverse.indexOf? k).map (fun i => metric_keys.length - 1 - i)).getD 0

/-- Point comparison used by entry["points"].sort(key=time_start_ts). -/
def pointLe (p q : SeriesPoint) : Prop := p.time_start_ts ≤ q.time_start_ts

instance : DecidableRel pointLe := fun p q =>
  inferInstanceAs (Decidable (p.time_start_ts ≤ q.time_start_ts))

/-- Lexicographic comparison of equal-length Python string tuples. -/
def listLe : List String → List String → Prop
  | [], _ => True
  | _ :: _, [] => False
  | a :: as, b :: bs => strLt a b ∨ (a = b ∧ listLe as bs)

/-- Decidability of the tuple comparison. -/
def decListLe : (l₁ l₂ : List String) → Decidable (listLe l₁ l₂)
  | [], _ => isTrue (by simp [listLe])
  | _ :: _, [] => isFalse (by simp [listLe])
  | a :: as, b :: bs =>
    letI : Decidable (listLe as bs) := decListLe as bs
    decidable_of_iff (strLt a b ∨ (a = b ∧ listLe as bs)) (by simp [listLe])

instance : DecidableRel listLe := decListLe

/-- The Python sort key of _finalize_series: metric position, then the group-by
dimension values in requested-dimension order. -/
def entryKey (metric_keys labels : List String) (e : SeriesEntry) : Nat × List String :=
  (metricOrderIdx metric_keys e.metric_key, labels.map (lookupDim e.dimensions))

/-- Comparison of Python (int, tuple-of-str) sort keys. -/
def pairKeyLe (x y : Nat × List String) : Prop :=
  x.1 < y.1 ∨ (x.1 = y.1 ∧ listLe x.2 y.2)

instance : DecidableRel pairKeyLe := fun x y =>
  inferInstanceAs (Decidable (x.1 < y.1 ∨ (x.1 = y.1 ∧ listLe x.2 y.2)))

/-- Entry comparison induced by the sort key. -/
def entryLe (metric_keys labels : List String) (e₁ e₂ : SeriesEntry) : Prop :=
  pairKeyLe (entryKey metric_keys labels e₁) (entryKey metric_keys labels e₂)

instance (metric_keys labels : List String) : DecidableRel (entryLe metric_keys labels) :=
  fun e₁ e₂ => inferInstanceAs
    (Decidable (pairKeyLe (entryKey metric_keys labels e₁) (entryKey metric_keys labels e₂)))

/-- _finalize_series from queries.py lines 105-121: sort each entry points by time
bucket, then sort the entries by (metric position, group-by values). Both Python
sorts are stable and are modelled by insertion sort, which is also stable. -/
def finalize_series (metric_keys labels : List String)
    (entries : List SeriesEntry) : List SeriesEntry :=
  let pointSorted := entries.map (fun e =>
    { metric_key := e.metric_key, dimensions := e.dimensions,
      points := List.insertionSort pointLe e.points })
  List.insertionSort (entryLe metric_keys labels) pointSorted

/-! CSV ingestion (metrics.py lines 436-791, upload_metrics_csv). The parsed
DataFrame is modelled as a list of records keyed by column name, exactly the shape
df.to_dict(orient="records") later gives the code itself. Pandas cell parsers are
external library code; they are modelled by explicit parsers over the cell text,
with blank cells and pandas NA identified (the code itself applies
replace("", pd.NA)). Timestamps are modelled as integer minutes since the epoch. -/

/-- One CSV record: column name to raw cell text; a blank cell is the empty string. -/
abbrev Record := List (String × String)

/-- An uploaded CSV file after pandas parsing: the column list and one record per row. -/
structure CsvFile where
  columns : List String
  records : List Record
deriving DecidableEq, Repr

/-- REQUIRED_UPLOAD_COLUMNS from metrics.py lines 46-60. -/
def REQUIRED_UPLOAD_COLUMNS : List String :=
  ["metric_key", "metric_name", "metric_description", "metric_type", "unit",
   "directionality", "aggregation", "grain", "time_start_ts", "time_end_ts",
   "value_num", "sample_size", "is_estimated"]

/-- REQUIRED_UPLOAD_VALUES from metrics.py lines 62-70. -/
def REQUIRED_UPLOAD_VALUES : List String :=
  ["metric_key", "metric_name", "metric_type", "aggregation", "grain",
   "time_start_ts", "value_num"]

/-- Python sorted() over strings. -/
def sortStrings (l : List String) : List String :=
  List.insertionSort strLe l

/-- Model of the pandas timestamp parser (pd.to_datetime with errors coerce), an
external library function: a timestamp cell is an integer count of minutes since the
epoch; anything else fails to parse. -/
def parseTimestamp (s : String) : Option Int := pyToInt? (pyTrim s)

/-- Model of the pandas numeric parser (pd.to_numeric with errors coerce), an
external library function: plain decimal literals with an optional sign and an
optional fractional part; anything else fails to parse. -/
def parseDecimal (s0 : String) : Option Decimal :=
  let s1 := pyTrim s0
  let signed := match s1.data with
    | '-' :: rest => (true, rest)
    | '+' :: rest => (false, rest)
    | l => (false, l)
  match splitOnChar '.' signed.2 with
  | [intPart] =>
    if intPart.isEmpty then none
    else (digitsToNat intPart 0).map (fun n =>
      ⟨if signed.1 then -(n : Int) else (n : Int), 0⟩)
  | [intPart, fracPart] =>
    if intPart.isEmpty || fracPart.isEmpty then none
    else
      match digitsToNat intPart 0, digitsToNat fracPart 0 with
      | some i, some f =>
        let m : Int := ((i * 10 ^ fracPart.length + f : Nat) : Int)
        some ⟨if signed.1 then -m else m, fracPart.length⟩
      | _, _ => none
  | _ => none

/-- Python int() applied to a float: truncation toward zero. -/
def decimalTruncInt (d : Decimal) : Int := Int.tdiv d.mantissa ((10 : Int) ^ d.scale)

/-- _normalize_boolean from metrics.py lines 202-216, restricted to string cells,
with the absent and blank cells (pandas NA, both mapped to the empty string here)
defaulting to false and unrecognized tokens returning none. -/
def normalize_boolean (s : String) : Option Bool :=
  let cleaned := pyToLower (pyTrim s)
  if cleaned ∈ ["true", "t", "yes", "y", "1"] then some true
  else if cleaned ∈ ["false", "f", "no", "n", "0", ""] then some false
  else none

/-- Cell lookup in a record, the empty string for an absent column. -/
def getCell (r : Record) (c : String) : String := lookupDim r c

/-- Overwrite the cell of a named column. -/
def setCell (r : Record) (k v : String) : Record :=
  r.map (fun kv => if kv.1 = k then (k, v) else kv)

/-- The column transforms of metrics.py lines 463-473: trim every reserved text
column, lowercase metric_key, metric_type, directionality, aggregation and grain. -/
def normalizeRecordCells (r : Record) : Record :=
  let r := setCell r "metric_key" (pyToLower (pyTrim (getCell r "metric_key")))
  let r := setCell r "metric_name" (pyTrim (getCell r "metric_name"))
  let r := setCell r "metric_description" (pyTrim (getCell r "metric_description"))
  let r := setCell r "metric_type" (pyToLower (pyTrim (getCell r "metric_type")))
  let r := setCell r "unit" (pyTrim (getCell r "unit"))
  let r := setCell r "directionality" (pyToLower (pyTrim (getCell r "directionality")))
  let r := setCell r "aggregation" (pyToLower (pyTrim (getCell r "aggregation")))
  setCell r "grain" (pyToLower (pyTrim (getCell r "grain")))

/-- _unique_field from metrics.py lines 219-242 applied to the cells of one metric
group: trim, drop blanks, optionally lowercase, dedup preserving order; more than one
distinct value is a conflict, and a required field with no value is missing. -/
def unique_field (cells : List String) (field metric_key : String)
    (required : Bool) (lower : Bool) : Except HTTPError (Option String) :=
  let values := (cells.map pyTrim).filter (fun v => v ≠ "")
  let values := if lower then values.map pyToLower else values
  let uniq := dedupFirst values
  if 1 < uniq.length then
    .error ⟨400, "conflicting " ++ field ++ " values for metric_key: " ++ metric_key⟩
  else if required && uniq.isEmpty then
    .error ⟨400, "missing " ++ field ++ " for metric_key: " ++ metric_key⟩
  else .ok uniq.head?

/-- One row of metric_rows (metrics.py lines 514-549). -/
structure MetricUpsert where
  metric_key : String
  metric_name : String
  metric_description : Option String
  metric_type : String
  unit : Option String
  directionality : Option String
  aggregation : String
deriving DecidableEq, Repr

/-- df.groupby("metric_key"): groups keyed by the distinct metric keys in ascending
order, each holding the records of that key. -/
def metricGroups (records : List Record) : List (String × List Record) :=
  (sortStrings (dedupFirst (records.map (fun r => getCell r "metric_key")))).map fun k =>
    (k, records.filter (fun r => getCell r "metric_key" = k))

/-- The per-metric catalog rows of metrics.py lines 514-549, with the _unique_field
checks applied in source order. -/
def buildMetricRows (records : List Record) : Except HTTPError (List MetricUpsert) :=
  (metricGroups records).mapM fun g => do
    let name ← unique_field (g.2.map (fun r => getCell r "metric_name")) "metric_name" g.1 true false
    let description ← unique_field (g.2.map (fun r => getCell r "metric_description"))
      "metric_description" g.1 false false
    let mtype ← unique_field (g.2.map (fun r => getCell r "metric_type")) "metric_type" g.1 true true
    let unit ← unique_field (g.2.map (fun r => getCell r "unit")) "unit" g.1 false false
    let directionality ← unique_field (g.2.map (fun r => getCell r "directionality"))
      "directionality" g.1 false true
    let aggregation ← unique_field (g.2.map (fun r => getCell r "aggregation"))
      "aggregation" g.1 true true
    pure ⟨g.1, name.getD "", description, mtype.getD "", unit, directionality, aggregation.getD ""⟩

/-- Approximation of Python str.title over the space-separated words produced by
replace("_", " "), used only for display names. -/
def pyTitle (s : String) : String :=
  pyIntercalate " " ((pySplitOn ' ' s).map (fun w =>
    match w.data with
    | [] => ""
    | c :: cs => String.mk (charToUpper c :: cs.map charToLower)))

/-- One validated CSV row, after every per-column parse succeeded. -/
structure ParsedRow where
  metric_key : String
  grain : String
  time_start_ts : Int
  time_end_ts : Option Int
  value_num : Decimal
  sample_size : Option Decimal
  is_estimated : Bool
  dims : List (String × String)
deriving DecidableEq, Repr

/-- The outcome of the pre-transaction validation phase of upload_metrics_csv. -/
structure ParsedUpload where
  dimension_columns : List String
  rows : List ParsedRow
  metric_rows : List MetricUpsert
  dimension_rows : List (String × String)
deriving DecidableEq, Repr

/-- The validation phase of upload_metrics_csv (metrics.py lines 453-557), in source
order: empty-file check, column normalization with duplicate and missing-column
checks, required-value checks, text transforms, grain support check, timestamp,
numeric, sample-size and boolean parses, dimension cell normalization, and the
per-metric catalog field checks. Every failure is an HTTP 400 before any database
statement runs. -/
def validate_upload (file : CsvFile) : Except HTTPError ParsedUpload := do
  if file.records.isEmpty then
    throw ⟨400, "file contains no rows"⟩
  let normalized := file.columns.map (fun c => pyToLower (pyTrim c))
  let dups := dedupFirst (normalized.filter (fun n => 1 < normalized.count n))
  if !dups.isEmpty then
    throw ⟨400, "duplicate columns after normalization: " ++
      pyIntercalate ", " (sortStrings dups)⟩
  let missingCols := REQUIRED_UPLOAD_COLUMNS.filter (fun c => !normalized.contains c)
  if !missingCols.isEmpty then
    throw ⟨400, "missing required columns: " ++ pyIntercalate ", " missingCols⟩
  let dimension_columns := normalized.filter (fun c => !REQUIRED_UPLOAD_COLUMNS.contains c)
  let records0 := file.records.map (fun r => r.map (fun kv => (pyToLower (pyTrim kv.1), kv.2)))
  match REQUIRED_UPLOAD_VALUES.find? (fun c => records0.any (fun r => pyTrim (getCell r c) = "")) with
  | some c => throw ⟨400, c ++ " is required"⟩
  | none => do
  let records := records0.map normalizeRecordCells
  let grains := dedupFirst (records.map (fun r => getCell r "grain"))
  let unsupported := grains.filter (fun g => !is_supported_grain g)
  if !unsupported.isEmpty then
    throw ⟨400, "unsupported grain(s): " ++ pyIntercalate ", " (sortStrings unsupported)⟩
  if records.any (fun r => (parseTimestamp (getCell r "time_start_ts")).isNone) then
    throw ⟨400, "invalid time_start_ts values"⟩
  if records.any (fun r => pyTrim (getCell r "time_end_ts") ≠ "" ∧
      (parseTimestamp (getCell r "time_end_ts")).isNone) then
    throw ⟨400, "invalid time_end_ts values"⟩
  if records.any (fun r =>
      match parseTimestamp (getCell r "time_end_ts"), parseTimestamp (getCell r "time_start_ts") with
      | some e, some s => e ≤ s
      | _, _ => false) then
    throw ⟨400, "time_end_ts must be after time_start_ts"⟩
  if records.any (fun r => (parseDecimal (getCell r "value_num")).isNone) then
    throw ⟨400, "invalid value_num values"⟩
  if records.any (fun r => pyTrim (getCell r "sample_size") ≠ "" ∧
      (parseDecimal (getCell r "sample_size")).isNone) then
    throw ⟨400, "invalid sample_size values"⟩
  if records.any (fun r => (normalize_boolean (getCell r "is_estimated")).isNone) then
    throw ⟨400, "invalid is_estimated values"⟩
  let metric_rows ← buildMetricRows records
  let rows := records.map (fun r =>
    { metric_key := getCell r "metric_key"
      grain := getCell r "grain"
      time_start_ts := (parseTimestamp (getCell r "time_start_ts")).getD 0
      time_end_ts := if pyTrim (getCell r "time_end_ts") = "" then none
        else parseTimestamp (getCell r "time_end_ts")
      value_num := (parseDecimal (getCell r "value_num")).getD ⟨0, 0⟩
      sample_size := if pyTrim (getCell r "sample_size") = "" then none
        else parseDecimal (getCell r "sample_size")
      is_estimated := (normalize_boolean (getCell r "is_estimated")).getD false
      dims := dimension_columns.filterMap (fun c =>
        let v := pyTrim (getCell r c)
        if v = "" then none else some (c, v)) : ParsedRow })
  let dimension_rows := dimension_columns.map (fun k => (k, pyTitle (String.mk (k.data.map (fun c => if c = '_' then ' ' else c)))))
  pure ⟨dimension_columns, rows, metric_rows, dimension_rows⟩

/-! The transactional state and the statement sequence of the ingestion transaction
(metrics.py lines 559-781). Each statement is a function of the session state; the
first failing statement aborts the transaction. -/

/-- The relational store state for the metrics schema. -/
structure DB where
  metric_definition : List MetricDefRow
  dimension_definition : List DimensionDefRow
  dimension_value : List DimValueRow
  dimension_set : List DimSetRow
  dimension_set_value : List SetValueRow
  metric_series : List SeriesRow
  metric_observation : List ObservationRow
  next_metric_id : Nat
  next_dimension_id : Nat
  next_value_id : Nat
  next_set_id : Nat
  next_series_id : Nat
  next_observation_id : Nat
deriving DecidableEq, Repr

/-- The empty store. -/
def emptyDB : DB := ⟨[], [], [], [], [], [], [], 1, 1, 1, 1, 1, 1⟩

/-- INSERT .. ON CONFLICT (metric_key) DO UPDATE for one metric row
(metrics.py lines 563-576). -/
def upsertMetricRow (db : DB) (m : MetricUpsert) : DB :=
  if db.metric_definition.any (fun r => r.metric_key = m.metric_key) then
    { db with metric_definition := db.metric_definition.map (fun r =>
        if r.metric_key = m.metric_key then
          { r with
            metric_name := m.metric_name
            metric_description := m.metric_description
            metric_type := m.metric_type
            unit := m.unit
            directionality := m.directionality
            aggregation := m.aggregation }
        else r) }
  else
    { db with
      metric_definition := db.metric_definition ++
        [⟨db.next_metric_id, m.metric_key, m.metric_name, m.metric_description,
          m.metric_type, m.unit, m.directionality, m.aggregation⟩],
      next_metric_id := db.next_metric_id + 1 }

/-- The metric upsert statement; its rowcount counts every inserted or updated row. -/
def upsertMetrics (ms : List MetricUpsert) (db : DB) : DB × Nat :=
  (ms.foldl upsertMetricRow db, ms.length)

/-- INSERT .. ON CONFLICT (dimension_key) DO UPDATE for the dimension rows
(metrics.py lines 578-584). -/
def upsertDimensions (ds : List (String × String)) (db : DB) : DB :=
  ds.foldl (fun db d =>
    if db.dimension_definition.any (fun r => r.dimension_key = d.1) then
      { db with dimension_definition := db.dimension_definition.map (fun r =>
          if r.dimension_key = d.1 then { r with dimension_name := d.2 } else r) }
    else
      { db with
        dimension_definition := db.dimension_definition ++ [⟨db.next_dimension_id, d.1, d.2⟩],
        next_dimension_id := db.next_dimension_id + 1 }) db

/-- Python dict lookup, raising KeyError when the key is absent. -/
def dictGet (m : List (String × Nat)) (k : String) : Except HTTPError Nat :=
  match m.find? (fun p => p.1 = k) with
  | some p => .ok p.2
  | none => .error ⟨500, "KeyError: " ++ k⟩

/-- INSERT .. ON CONFLICT (dimension_id, value) DO NOTHING for dimension values
(metrics.py lines 619-626); the rowcount counts only the inserted rows. -/
def insertDimensionValues (rows : List (Nat × String)) (db : DB) : DB × Nat :=
  rows.foldl (fun acc rv =>
    if acc.1.dimension_value.any (fun r => r.dimension_id = rv.1 ∧ r.value = rv.2) then acc
    else
      ({ acc.1 with
          dimension_value := acc.1.dimension_value ++ [⟨acc.1.next_value_id, rv.1, rv.2⟩],
          next_value_id := acc.1.next_value_id + 1 }, acc.2 + 1)) (db, 0)

/-- dimension_value_ids dict lookup (metrics.py lines 628-641 then 653). -/
def dictGetValueId (db : DB) (did : Nat) (v : String) : Except HTTPError Nat :=
  match db.dimension_value.find? (fun r => r.dimension_id = did ∧ r.value = v) with
  | some r => .ok r.value_id
  | none => .error ⟨500, "KeyError: dimension value"⟩

/-- One sorted (dimension_key, value, dimension_id, value_id) entry of a row's pair
list (metrics.py lines 647-655). -/
structure RowPair where
  key : String
  value : String
  dimension_id : Nat
  value_id : Nat
deriving DecidableEq, Repr

/-- The sort at metrics.py line 655: stable by dimension key. -/
def rpLe (a b : RowPair) : Prop := strLe a.key b.key

instance : DecidableRel rpLe := fun a b => inferInstanceAs (Decidable (strLe a.key b.key))

/-- INSERT .. ON CONFLICT (set_hash) DO NOTHING for the dimension sets
(metrics.py lines 664-671). -/
def insertDimensionSets (hashes : List String) (db : DB) : DB × Nat :=
  hashes.foldl (fun acc h =>
    if acc.1.dimension_set.any (fun r => r.set_hash = h) then acc
    else
      ({ acc.1 with
          dimension_set := acc.1.dimension_set ++ [⟨acc.1.next_set_id, h⟩],
          next_set_id := acc.1.next_set_id + 1 }, acc.2 + 1)) (db, 0)

/-- set_ids dict lookup by hash (metrics.py lines 673-679). -/
def dictGetSetId (db : DB) (h : String) : Except HTTPError Nat :=
  match db.dimension_set.find? (fun r => r.set_hash = h) with
  | some r => .ok r.set_id
  | none => .error ⟨500, "KeyError: set hash"⟩

/-- INSERT .. ON CONFLICT (set_id, value_id) DO NOTHING for the set value joins
(metrics.py lines 692-697). -/
def insertSetValues (rows : List SetValueRow) (db : DB) : DB :=
  rows.foldl (fun db r =>
    if db.dimension_set_value.any (fun x => x.set_id = r.set_id ∧ x.value_id = r.value_id) then db
    else { db with dimension_set_value := db.dimension_set_value ++ [r] }) db

/-- INSERT .. ON CONFLICT (metric_id, grain, set_id) DO NOTHING for the series rows
(metrics.py lines 717-724). -/
def insertSeries (rows : List (Nat × String × Nat)) (db : DB) : DB × Nat :=
  rows.foldl (fun acc r =>
    if acc.1.metric_series.any (fun s =>
        s.metric_id = r.1 ∧ s.grain = r.2.1 ∧ s.set_id = r.2.2) then acc
    else
      ({ acc.1 with
          metric_series := acc.1.metric_series ++ [⟨acc.1.next_series_id, r.1, r.2.1, r.2.2⟩],
          next_series_id := acc.1.next_series_id + 1 }, acc.2 + 1)) (db, 0)

/-- series_ids dict lookup (metrics.py lines 726-752). -/
def dictGetSeriesId (db : DB) (mid : Nat) (grain : String) (sid : Nat) :
    Except HTTPError Nat :=
  match db.metric_series.find? (fun s =>
      s.metric_id = mid ∧ s.grain = grain ∧ s.set_id = sid) with
  | some s => .ok s.series_id
  | none => .error ⟨500, "KeyError: series"⟩

/-- One observation row about to be inserted (metrics.py lines 761-770). -/
structure NewObservation where
  series_id : Nat
  time_start_ts : Int
  time_end_ts : Option Int
  value_num : Decimal
  sample_size : Option Int
  is_estimated : Bool
deriving DecidableEq, Repr

/-- Insert one observation row, enforcing the table constraints of migration
0004_rebuild_metrics_schema.py lines 220-228: uq_obs_series_time on
(series_id, time_start_ts), ck_obs_sample_nonneg and ck_obs_time_range. A violation
raises and aborts the transaction. -/
def insertObservation (db : DB) (r : NewObservation) : Except HTTPError DB :=
  if db.metric_observation.any (fun o =>
      o.series_id = r.series_id ∧ o.time_start_ts = r.time_start_ts) then
    .error ⟨500, "IntegrityError: duplicate key value violates unique constraint uq_obs_series_time"⟩
  else if !(match r.sample_size with | some n => decide (0 ≤ n) | none => true) then
    .error ⟨500, "IntegrityError: new row violates check constraint ck_obs_sample_nonneg"⟩
  else if !(match r.time_end_ts with | some e => decide (r.time_start_ts < e) | none => true) then
    .error ⟨500, "IntegrityError: new row violates check constraint ck_obs_time_range"⟩
  else
    .ok { db with
      metric_observation := db.metric_observation ++
        [⟨db.next_observation_id, r.series_id, r.time_start_ts, r.time_end_ts,
          r.value_num, r.sample_size, r.is_estimated⟩],
      next_observation_id := db.next_observation_id + 1 }

/-- The plain multi-row observation INSERT (metrics.py lines 772-776): no conflict
clause, rows inserted in order, the first constraint violation aborting. -/
def insertObservations (rows : List NewObservation) (db : DB) : Except HTTPError (DB × Nat) := do
  let db ← rows.foldlM insertObservation db
  pure (db, rows.length)

/-- The response body of a successful upload (metrics.py lines 783-791). -/
structure UploadReport where
  rows : Nat
  metrics_upserted : Nat
  dimensions_upserted : Nat
  dimension_values_inserted : Nat
  dimension_sets_inserted : Nat
  metric_series_inserted : Nat
  metric_observations_inserted : Nat
deriving DecidableEq, Repr

/-- The statement sequence of the ingestion transaction (metrics.py lines 559-778),
in source order: metric and dimension upserts, id selects, dimension-value inserts,
per-row set hashing with in-memory dedup, set and set-value and series inserts, the
series id select, and the plain observation insert. An error anywhere aborts. -/
def run_ingest_transaction (db0 : DB) (p : ParsedUpload) :
    Except HTTPError (DB × UploadReport) := do
  let (db1, metrics_upserted) := upsertMetrics p.metric_rows db0
  let db2 := upsertDimensions p.dimension_rows db1
  let metricIds : List (String × Nat) :=
    (db2.metric_definition.filter (fun r =>
      p.metric_rows.any (fun m => m.metric_key = r.metric_key))).map
      (fun r => (r.metric_key, r.metric_id))
  let dimensionIds : List (String × Nat) :=
    (db2.dimension_definition.filter (fun r =>
      p.dimension_columns.contains r.dimension_key)).map
      (fun r => (r.dimension_key, r.dimension_id))
  let dimension_value_rows ← p.dimension_columns.foldlM (fun acc c => do
    let values := dedupFirst (p.rows.filterMap (fun r =>
      (r.dims.find? (fun d => d.1 = c)).map (fun d => d.2)))
    if values.isEmpty then pure acc
    else do
      let did ← dictGet dimensionIds c
      pure (acc ++ values.map (fun v => (did, v)))) ([] : List (Nat × String))
  let (db3, dimension_values_inserted) := insertDimensionValues dimension_value_rows db2
  let rowPairs ← p.rows.mapM (fun r => do
    let pairs ← r.dims.mapM (fun d => do
      let did ← dictGet dimensionIds d.1
      let vid ← dictGetValueId db3 did d.2
      pure (⟨d.1, d.2, did, vid⟩ : RowPair))
    pure (List.insertionSort rpLe pairs))
  let rowData := rowPairs.map (fun pairs =>
    (build_set_hash (pairs.map (fun q => (q.key, q.value))),
     pairs.map (fun q => (q.dimension_id, q.value_id))))
  let set_hashes := dedupFirst (rowData.map (fun rd => rd.1))
  let (db4, dimension_sets_inserted) := insertDimensionSets set_hashes db3
  let set_value_rows ← set_hashes.foldlM (fun acc h => do
    let sid ← dictGetSetId db4 h
    let pairs := ((rowData.find? (fun rd => rd.1 = h)).map (fun rd => rd.2)).getD []
    pure (acc ++ pairs.map (fun dv => (⟨sid, dv.2, dv.1⟩ : SetValueRow))))
    ([] : List SetValueRow)
  let db5 := insertSetValues set_value_rows db4
  let seriesKeyed ← (p.rows.zip rowData).mapM (fun rr => do
    let mid ← dictGet metricIds rr.1.metric_key
    let sid ← dictGetSetId db5 rr.2.1
    pure (mid, normalize_grain rr.1.grain, sid))
  let series_rows := dedupFirst seriesKeyed
  let (db6, metric_series_inserted) := insertSeries series_rows db5
  let observation_rows ← (p.rows.zip rowData).mapM (fun rr => do
    let mid ← dictGet metricIds rr.1.metric_key
    let sid ← dictGetSetId db6 rr.2.1
    let series_id ← dictGetSeriesId db6 mid (normalize_grain rr.1.grain) sid
    pure (⟨series_id, rr.1.time_start_ts, rr.1.time_end_ts, rr.1.value_num,
      rr.1.sample_size.map decimalTruncInt, rr.1.is_estimated⟩ : NewObservation))
  let (db7, observations_inserted) ← insertObservations observation_rows db6
  pure (db7,
    { rows := p.rows.length
      metrics_upserted := metrics_upserted
      dimensions_upserted := p.dimension_rows.length
      dimension_values_inserted := dimension_values_inserted
      dimension_sets_inserted := dimension_sets_inserted
      metric_series_inserted := metric_series_inserted
      metric_observations_inserted := observations_inserted })

/-- upload_metrics_csv (metrics.py lines 436-791): validation before any statement,
then the single transaction of lines 559-781 with commit on success; any exception
triggers session.rollback, restoring the pre-transaction store state, and re-raises
(lines 779-781). The returned pair is the visible store state and the response. -/
def upload_metrics_csv (db : DB) (file : CsvFile) : DB × Except HTTPError UploadReport :=
  match validate_upload file with
  | .error e => (db, .error e)
  | .ok p =>
    match run_ingest_transaction db p with
    | .ok (db1, report) => (db1, .ok report)
    | .error e => (db, .error e)

/-- The rank select_source_grain assigns to a grain string:
GRAIN_RANK.get(normalize_grain(g), 999). -/
def grainRankOf (g : String) : Nat := grainRankD (normalize_grain g)

/-! Invariants and concrete example inputs used by the theorems below. -/

/-- The observation uniqueness invariant backing uq_obs_series_time
(0004_rebuild_metrics_schema.py line 228): no two stored observations share
(series_id, time_start_ts). -/
def ObsUnique (db : DB) : Prop :=
  db.metric_observation.Pairwise
    (fun a b => ¬(a.series_id = b.series_id ∧ a.time_start_ts = b.time_start_ts))

/-- The column header of the example uploads: every reserved column plus one
dimension column. -/
def exampleColumns : List String := REQUIRED_UPLOAD_COLUMNS ++ ["country"]

/-- Build an example record from the fourteen cell values, in header order. -/
def exampleRecord (cells : List String) : Record := exampleColumns.zip cells

/-- A well-formed single-row upload of the signups metric. -/
def csvSignups : CsvFile :=
  ⟨exampleColumns,
   [exampleRecord ["signups", "Signups", "", "count", "", "", "sum", "day",
     "28927440", "", "5", "", "", "US"]]⟩

/-- The same upload plus a last row whose value_num cell does not parse. -/
def csvBadValue : CsvFile :=
  ⟨exampleColumns,
   [exampleRecord ["signups", "Signups", "", "count", "", "", "sum", "day",
     "28927440", "", "5", "", "", "US"],
    exampleRecord ["signups", "Signups", "", "count", "", "", "sum", "day",
     "28928880", "", "abc", "", "", "US"]]⟩

/-- A single-row upload whose sample_size cell is the non-integer literal 2.5. -/
def csvSampleFrac : CsvFile :=
  ⟨exampleColumns,
   [exampleRecord ["signups", "Signups", "", "count", "", "", "sum", "day",
     "28927440", "", "5", "2.5", "", "US"]]⟩

/-- A single-row upload whose sample_size cell is negative. -/
def csvSampleNegative : CsvFile :=
  ⟨exampleColumns,
   [exampleRecord ["signups", "Signups", "", "count", "", "", "sum", "day",
     "28927440", "", "5", "-5", "", "US"]]⟩

/-- A single-row upload whose sample_size cell does not parse as a number. -/
def csvSampleUnparsable : CsvFile :=
  ⟨exampleColumns,
   [exampleRecord ["signups", "Signups", "", "count", "", "", "sum", "day",
     "28927440", "", "5", "abc", "", "US"]]⟩

/-- Two identical rows in one batch: same series and same time_start_ts. -/
def csvDupRows : CsvFile :=
  ⟨exampleColumns,
   [exampleRecord ["signups", "Signups", "", "count", "", "", "sum", "day",
     "28927440", "", "5", "", "", "US"],
    exampleRecord ["signups", "Signups", "", "count", "", "", "sum", "day",
     "28927440", "", "5", "", "", "US"]]⟩

/-- An example observation for the query model. -/
def exObservation : ObservationRow := ⟨1, 1, 100, none, ⟨5, 0⟩, none, false⟩

/-- An example series whose dimension set is set 10. -/
def exSeries : SeriesRow := ⟨1, 1, "day", 10⟩

/-- The example base query row. -/
def exQueryRow : QueryRow := ⟨exObservation, exSeries, []⟩

/-- Set 10 holds value 20 of dimension 5. -/
def exSetValues : List SetValueRow := [⟨10, 20, 5⟩]

/-- Value 20 of dimension 5 is the string US. -/
def exDimValues : List DimValueRow := [⟨20, 5, "US"⟩]

/-- Example series entries for the ordering theorems. -/
def exEntryA : SeriesEntry := ⟨"m2", [("country", "US")], [⟨200, ⟨2, 0⟩⟩, ⟨100, ⟨1, 0⟩⟩]⟩

/-- A second example entry with an earlier metric position. -/
def exEntryB : SeriesEntry := ⟨"m1", [("country", "DE")], [⟨50, ⟨3, 0⟩⟩]⟩

/-- An example metric catalog. -/
def exMetricDefs : List MetricDefRow :=
  [⟨1, "signups", "Signups", none, "count", none, none, "sum"⟩]

/-- An example dimension catalog. -/
def exDimensionDefs : List DimensionDefRow := [⟨7, "country", "Country"⟩]

/-! Theorems. -/

/-- C3: for every request whose filter list is non-empty, _build_filter_pairs reads
the attribute value_ids, which the DimensionFilter payload schema does not declare,
so the call raises AttributeError before any pair is built: the timeseries,
aggregate and top-K endpoints can never apply the documented filter semantics to a
filtered request. -/
theorem c3_filter_pairs_crash :
    (∀ (flt : DimensionFilter) (rest : List DimensionFilter),
      build_filter_pairs (flt :: rest) =
        .error "AttributeError: DimensionFilter object has no attribute value_ids") ∧
    build_filter_pairs [⟨"country", ["US"]⟩] =
      .error "AttributeError: DimensionFilter object has no attribute value_ids" := by
  constructor
  · intro flt rest
    rfl
  · rfl

/-- C4: whenever upload_metrics_csv reports an error, the visible store state is
exactly the state before the call (validation fails before any statement, and any
failure inside the transaction rolls every statement back); in particular a CSV
whose last row has an unparsable value_num is rejected with no change, for every
starting store. -/
theorem c4_ingestion_atomicity :
    (∀ (db : DB) (file : CsvFile) (e : HTTPError),
      (upload_metrics_csv db file).2 = .error e → (upload_metrics_csv db file).1 = db) ∧
    (∀ db : DB,
      upload_metrics_csv db csvBadValue = (db, .error ⟨400, "invalid value_num values"⟩)) := by
  constructor
  · intro db file
    unfold upload_metrics_csv
    cases validate_upload file with
    | error e1 => intro e h; rfl
    | ok p =>
      dsimp only
      cases run_ingest_transaction db p with
      | ok pr =>
        cases pr with
        | mk db1 rep => intro e h; simp at h
      | error e1 => intro e h; rfl
  · intro db
    have hv : validate_upload csvBadValue = .error ⟨400, "invalid value_num values"⟩ := by decide
    unfold upload_metrics_csv
    rw [hv]

/-- Witness for C4 at a concrete store and file. -/
theorem c4_witness : (upload_metrics_csv emptyDB csvBadValue).1 = emptyDB :=
  c4_ingestion_atomicity.1 emptyDB csvBadValue ⟨400, "invalid value_num values"⟩ (by decide)

/-- Int.emod is the % of the omega-normal form. -/
theorem int_emod_eq_mod (a b : Int) : Int.emod a b = a % b := rfl

/-- Int.ediv is the / of the omega-normal form. -/
theorem int_ediv_eq_div (a b : Int) : Int.ediv a b = a / b := rfl

/-- C7: the 30m bucket is the hour truncation plus thirty minutes exactly when the
minute component is at least thirty, and the hour truncation itself otherwise; the
biweek bucket is the ISO week truncation minus one week exactly when the ISO week
number is odd, and the week truncation itself otherwise. -/
theorem c7_irregular_time_buckets (t : Int) :
    ((build_time_bucket "30m" t = dateTruncHour t + 30 ↔ 30 ≤ datePartMinute t) ∧
     (build_time_bucket "30m" t = dateTruncHour t ↔ datePartMinute t < 30)) ∧
    ((build_time_bucket "biweek" t = dateTruncWeek t - MINUTES_PER_WEEK ↔
        Odd (extractWeek t)) ∧
     (build_time_bucket "biweek" t = dateTruncWeek t ↔ ¬ Odd (extractWeek t))) := by
  have h30 : build_time_bucket "30m" t
      = dateTruncHour t + Int.ediv (datePartMinute t) 30 * 30 := rfl
  have hbi : build_time_bucket "biweek" t
      = dateTruncWeek t - Int.emod (extractWeek t) 2 * MINUTES_PER_WEEK := rfl
  rw [h30, hbi]
  unfold datePartMinute dateTruncHour MINUTES_PER_WEEK
  rw [Int.odd_iff]
  simp only [int_emod_eq_mod, int_ediv_eq_div]
  omega

/-- Witness for C7 at a concrete timestamp: 95 minutes past the epoch lies in the
second half of its hour, so its 30m bucket is the hour start plus thirty minutes. -/
theorem c7_witness : build_time_bucket "30m" 95 = dateTruncHour 95 + 30 :=
  ((c7_irregular_time_buckets 95).1.1).mpr (by decide)

/-- The Python max fold returns an element of the candidate list. -/
theorem foldlMax_mem : ∀ (xs : List (Nat × String)) (a : Nat × String),
    xs.foldl (fun acc y => if acc.1 < y.1 then y else acc) a ∈ a :: xs := by
  intro xs
  induction xs with
  | nil => intro a; simp
  | cons y ys ih =>
    intro a
    simp only [List.foldl_cons]
    have h := ih (if a.1 < y.1 then y else a)
    rcases List.mem_cons.mp h with h1 | h1
    · rw [h1]
      split
      · exact List.mem_cons_of_mem _ (List.mem_cons_self _ _)
      · exact List.mem_cons_self _ _
    · exact List.mem_cons_of_mem _ (List.mem_cons_of_mem _ h1)

/-- The Python max fold dominates the rank of every element of the candidate list. -/
theorem foldlMax_ge : ∀ (xs : List (Nat × String)) (a x : Nat × String), x ∈ a :: xs →
    x.1 ≤ (xs.foldl (fun acc y => if acc.1 < y.1 then y else acc) a).1 := by
  intro xs
  induction xs with
  | nil =>
    intro a x hx
    simp at hx
    subst hx
    simp
  | cons y ys ih =>
    intro a x hx
    simp only [List.foldl_cons]
    have hab : a.1 ≤ (if a.1 < y.1 then y else a).1 := by split <;> omega
    have hyb : y.1 ≤ (if a.1 < y.1 then y else a).1 := by split <;> omega
    have hb := ih (if a.1 < y.1 then y else a) (if a.1 < y.1 then y else a)
      (List.mem_cons_self _ _)
    rcases List.mem_cons.mp hx with h1 | h1
    · rw [h1]; exact le_trans hab hb
    · rcases List.mem_cons.mp h1 with h2 | h2
      · rw [h2]; exact le_trans hyb hb
      · exact ih _ x (List.mem_cons_of_mem _ h2)

/-- The Python min fold returns an element of the list. -/
theorem foldlMin_mem : ∀ (xs : List (Nat × String)) (a : Nat × String),
    xs.foldl (fun acc y => if y.1 < acc.1 then y else acc) a ∈ a :: xs := by
  intro xs
  induction xs with
  | nil => intro a; simp
  | cons y ys ih =>
    intro a
    simp only [List.foldl_cons]
    have h := ih (if y.1 < a.1 then y else a)
    rcases List.mem_cons.mp h with h1 | h1
    · rw [h1]
      split
      · exact List.mem_cons_of_mem _ (List.mem_cons_self _ _)
      · exact List.mem_cons_self _ _
    · exact List.mem_cons_of_mem _ (List.mem_cons_of_mem _ h1)

/-- The Python min fold is dominated by the rank of every element of the list. -/
theorem foldlMin_le : ∀ (xs : List (Nat × String)) (a x : Nat × String), x ∈ a :: xs →
    (xs.foldl (fun acc y => if y.1 < acc.1 then y else acc) a).1 ≤ x.1 := by
  intro xs
  induction xs with
  | nil =>
    intro a x hx
    simp at hx
    subst hx
    simp
  | cons y ys ih =>
    intro a x hx
    simp only [List.foldl_cons]
    have hab : (if y.1 < a.1 then y else a).1 ≤ a.1 := by split <;> omega
    have hyb : (if y.1 < a.1 then y else a).1 ≤ y.1 := by split <;> omega
    have hb := ih (if y.1 < a.1 then y else a) (if y.1 < a.1 then y else a)
      (List.mem_cons_self _ _)
    rcases List.mem_cons.mp hx with h1 | h1
    · rw [h1]; exact le_trans hb hab
    · rcases List.mem_cons.mp h1 with h2 | h2
      · rw [h2]; exact le_trans hb hyb
      · exact ih _ x (List.mem_cons_of_mem _ h2)

/-- C1 counterexample: with stored grains day and week (either iteration order), a
requested grain of week resolves to week itself, not to day as the claim states:
week is its own candidate with the largest rank not exceeding the requested rank. -/
theorem c1_counterexample :
    select_source_grain ["day", "week"] "week" = "week" ∧
    select_source_grain ["week", "day"] "week" = "week" ∧
    select_source_grain ["day", "week"] "week" ≠ "day" := by
  decide

/-- grainRankOf is definitionally the rank lookup select_source_grain performs. -/
theorem grainRankOf_def (g : String) : grainRankD (normalize_grain g) = grainRankOf g := rfl

/-- C1 (amended): for an empty stored set the requested grain is returned unchanged;
for a non-empty stored set of supported grains and a supported requested grain, the
result is a stored grain, it has the largest rank among stored grains whose rank does
not exceed the requested rank when such a grain exists (so requesting week over
stored day and week yields week), and otherwise it has the smallest stored rank. -/
theorem c1_grain_resolution :
    (∀ requested : String, select_source_grain [] requested = requested) ∧
    (∀ (grains : List String) (requested : String), grains ≠ [] →
      (∀ g ∈ grains, is_supported_grain g = true) →
      is_supported_grain requested = true →
      select_source_grain grains requested ∈ grains ∧
      ((∃ g ∈ grains, grainRankOf g ≤ grainRankOf requested) →
        grainRankOf (select_source_grain grains requested) ≤ grainRankOf requested ∧
        ∀ g ∈ grains, grainRankOf g ≤ grainRankOf requested →
          grainRankOf g ≤ grainRankOf (select_source_grain grains requested)) ∧
      ((∀ g ∈ grains, ¬ grainRankOf g ≤ grainRankOf requested) →
        ∀ g ∈ grains, grainRankOf (select_source_grain grains requested) ≤ grainRankOf g)) ∧
    select_source_grain ["day", "week"] "hour" = "day" ∧
    select_source_grain ["week", "day"] "hour" = "day" ∧
    select_source_grain ["day", "week"] "week" = "week" ∧
    select_source_grain ["week", "day"] "week" = "week" ∧
    select_source_grain ["day", "week"] "month" = "week" ∧
    select_source_grain ["week", "day"] "month" = "week" := by
  refine ⟨fun requested => rfl, ?_, by decide, by decide, by decide, by decide, by decide,
    by decide⟩
  intro grains requested hne _hsup _hreq
  have hgE : grains.isEmpty = false := by
    cases grains
    · exact absurd rfl hne
    · rfl
  have hmem_ranked : ∀ p ∈ grains.map (fun g => (grainRankOf g, g)),
      p.2 ∈ grains ∧ p.1 = grainRankOf p.2 := by
    intro p hp
    rcases List.mem_map.mp hp with ⟨g, hg, hgp⟩
    rw [← hgp]
    exact ⟨hg, rfl⟩
  have hranked_mem : ∀ g ∈ grains, (grainRankOf g, g) ∈
      grains.map (fun g => (grainRankOf g, g)) :=
    fun g hg => List.mem_map.mpr ⟨g, hg, rfl⟩
  unfold select_source_grain
  rw [hgE]
  simp only [Bool.false_eq_true, if_false, grainRankOf_def]
  cases hc : pyMaxByFst ((grains.map (fun g => (grainRankOf g, g))).filter
      (fun p => p.1 ≤ grainRankOf requested)) with
  | some best =>
    dsimp only
    have hbestmem : best ∈ (grains.map (fun g => (grainRankOf g, g))).filter
        (fun p => p.1 ≤ grainRankOf requested) := by
      unfold pyMaxByFst at hc
      cases hcand : (grains.map (fun g => (grainRankOf g, g))).filter
          (fun p => p.1 ≤ grainRankOf requested) with
      | nil => rw [hcand] at hc; simp at hc
      | cons c cs =>
        rw [hcand] at hc
        simp only [Option.some.injEq] at hc
        rw [← hc]
        exact foldlMax_mem cs c
    have hbest_ranked := List.mem_filter.mp hbestmem
    have hbest_le : best.1 ≤ grainRankOf requested := by
      have := hbest_ranked.2
      simpa using this
    have hbest_g := hmem_ranked best hbest_ranked.1
    have hbest_rank_le : grainRankOf best.2 ≤ grainRankOf requested := by
      rw [← hbest_g.2]
      exact hbest_le
    refine ⟨hbest_g.1, fun _ => ⟨?_, ?_⟩,
      fun hno => False.elim (hno best.2 hbest_g.1 hbest_rank_le)⟩
    · rw [← hbest_g.2]
      exact hbest_le
    · intro g hg hgle
      have hgc : (grainRankOf g, g) ∈ (grains.map (fun g => (grainRankOf g, g))).filter
          (fun p => p.1 ≤ grainRankOf requested) :=
        List.mem_filter.mpr ⟨hranked_mem g hg, by simpa using hgle⟩
      unfold pyMaxByFst at hc
      cases hcand : (grains.map (fun g => (grainRankOf g, g))).filter
          (fun p => p.1 ≤ grainRankOf requested) with
      | nil => rw [hcand] at hgc; simp at hgc
      | cons c cs =>
        rw [hcand] at hc hgc
        simp only [Option.some.injEq] at hc
        have hge := foldlMax_ge cs c (grainRankOf g, g) hgc
        rw [hc] at hge
        rw [← hbest_g.2]
        exact hge
  | none =>
    dsimp only
    have hcand_nil : (grains.map (fun g => (grainRankOf g, g))).filter
        (fun p => p.1 ≤ grainRankOf requested) = [] := by
      cases hcand : (grains.map (fun g => (grainRankOf g, g))).filter
          (fun p => p.1 ≤ grainRankOf requested) with
      | nil => rfl
      | cons c cs =>
        rw [hcand] at hc
        unfold pyMaxByFst at hc
        simp at hc
    have hno : ∀ g ∈ grains, ¬ grainRankOf g ≤ grainRankOf requested := by
      intro g hg hle
      have hmem : (grainRankOf g, g) ∈ (grains.map (fun g => (grainRankOf g, g))).filter
          (fun p => p.1 ≤ grainRankOf requested) :=
        List.mem_filter.mpr ⟨hranked_mem g hg, by simpa using hle⟩
      rw [hcand_nil] at hmem
      simp at hmem
    cases grains with
    | nil => exact absurd rfl hne
    | cons g0 gs =>
      simp only [List.map_cons]
      unfold pyMinByFst
      simp only [Option.getD_some]
      have hminmem := foldlMin_mem (gs.map (fun g => (grainRankOf g, g))) (grainRankOf g0, g0)
      have hmin_ranked : (gs.map (fun g => (grainRankOf g, g))).foldl
          (fun acc y => if y.1 < acc.1 then y else acc) (grainRankOf g0, g0) ∈
          (g0 :: gs).map (fun g => (grainRankOf g, g)) := by
        simpa using hminmem
      have hmin_g := hmem_ranked _ hmin_ranked
      refine ⟨hmin_g.1, fun hex => ?_, fun _ => ?_⟩
      · rcases hex with ⟨g, hg, hgle⟩
        exact absurd hgle (hno g hg)
      · intro g hg
        have hle := foldlMin_le (gs.map (fun g => (grainRankOf g, g))) (grainRankOf g0, g0)
          (grainRankOf g, g) (by simpa using hranked_mem g hg)
        rw [← hmin_g.2]
        exact hle

/-- Witness for C1 at a concrete stored set and requested grain. -/
theorem c1_witness :
    select_source_grain ["day", "week"] "month" ∈ ["day", "week"] :=
  (c1_grain_resolution.2.1 ["day", "week"] "month" (by decide) (by decide) (by decide)).1

/-- Membership in the dedup worker: kept iff present and not already seen. -/
theorem dedupFirstGo_mem {α : Type} [DecidableEq α] :
    ∀ (l seen : List α) (x : α), x ∈ dedupFirstGo seen l ↔ x ∈ l ∧ x ∉ seen := by
  intro l
  induction l with
  | nil => intro seen x; simp [dedupFirstGo]
  | cons y ys ih =>
    intro seen x
    unfold dedupFirstGo
    split
    case isTrue hy =>
      rw [ih]
      simp only [List.mem_cons]
      constructor
      · rintro ⟨hm, hs⟩
        exact ⟨Or.inr hm, hs⟩
      · rintro ⟨hor, hs⟩
        rcases hor with rfl | hm
        · exact absurd hy hs
        · exact ⟨hm, hs⟩
    case isFalse hy =>
      constructor
      · intro hmem
        rcases List.mem_cons.mp hmem with rfl | hmem2
        · exact ⟨List.mem_cons_self _ _, hy⟩
        · have hys := (ih (y :: seen) x).mp hmem2
          exact ⟨List.mem_cons_of_mem _ hys.1,
            fun hxs => hys.2 (List.mem_cons_of_mem _ hxs)⟩
      · rintro ⟨hor, hs⟩
        rcases List.mem_cons.mp hor with rfl | hm
        · exact List.mem_cons_self _ _
        · by_cases hxy : x = y
          · rw [hxy]
            exact List.mem_cons_self _ _
          · refine List.mem_cons_of_mem _ ((ih (y :: seen) x).mpr ⟨hm, ?_⟩)
            intro hxys
            rcases List.mem_cons.mp hxys with h | h
            · exact hxy h
            · exact hs h

/-- The dedup worker returns a duplicate-free list. -/
theorem dedupFirstGo_nodup {α : Type} [DecidableEq α] :
    ∀ (l seen : List α), (dedupFirstGo seen l).Nodup := by
  intro l
  induction l with
  | nil => intro seen; simp [dedupFirstGo]
  | cons y ys ih =>
    intro seen
    unfold dedupFirstGo
    split
    · exact ih seen
    · rw [List.nodup_cons]
      refine ⟨fun hmem => ?_, ih (y :: seen)⟩
      rw [dedupFirstGo_mem] at hmem
      exact hmem.2 (List.mem_cons_self _ _)

/-- The dedup worker keeps the elements in first-occurrence order: it is a sublist. -/
theorem dedupFirstGo_sublist {α : Type} [DecidableEq α] :
    ∀ (l seen : List α), (dedupFirstGo seen l).Sublist l := by
  intro l
  induction l with
  | nil => intro seen; simp [dedupFirstGo]
  | cons y ys ih =>
    intro seen
    unfold dedupFirstGo
    split
    · exact (ih seen).cons y
    · exact (ih (y :: seen)).cons₂ y

/-- dict.fromkeys dedup preserves exactly the members of the input. -/
theorem dedupFirst_mem {α : Type} [DecidableEq α] (l : List α) (x : α) :
    x ∈ dedupFirst l ↔ x ∈ l := by
  unfold dedupFirst
  rw [dedupFirstGo_mem]
  simp

/-- dict.fromkeys dedup is duplicate free. -/
theorem dedupFirst_nodup {α : Type} [DecidableEq α] (l : List α) : (dedupFirst l).Nodup :=
  dedupFirstGo_nodup l []

/-- dict.fromkeys dedup keeps first-occurrence order. -/
theorem dedupFirst_sublist {α : Type} [DecidableEq α] (l : List α) : (dedupFirst l).Sublist l :=
  dedupFirstGo_sublist l []

/-- C9: key resolution first dedups the requested keys preserving first-occurrence
order; a successful metric or dimension resolution covers every requested key; and
when any requested key is absent from the catalog the call fails with a 404 whose
detail string is built from a missing list containing exactly the absent requested
keys, not just the first. -/
theorem c9_missing_key_reporting :
    (∀ keys : List String,
      (dedupFirst keys).Sublist keys ∧ (dedupFirst keys).Nodup ∧
      ∀ k, k ∈ dedupFirst keys ↔ k ∈ keys) ∧
    (∀ (defs : List MetricDefRow) (keys : List String) found,
      resolve_metric_ids defs keys = .ok found →
      ∀ k ∈ keys, ∃ e ∈ found, e.1 = k) ∧
    (∀ (defs : List MetricDefRow) (keys : List String),
      (∃ k ∈ keys, ∀ r ∈ defs, r.metric_key ≠ k) →
      ∃ missing : List String,
        resolve_metric_ids defs keys =
          .error ⟨404, "metric_key not found: " ++ pyIntercalate ", " missing⟩ ∧
        ∀ k, k ∈ missing ↔ k ∈ keys ∧ ∀ r ∈ defs, r.metric_key ≠ k) ∧
    (∀ (defs : List DimensionDefRow) (keys : List String) found,
      resolve_dimension_ids defs keys = .ok found →
      ∀ k ∈ keys, ∃ e ∈ found, e.1 = k) ∧
    (∀ (defs : List DimensionDefRow) (keys : List String),
      (∃ k ∈ keys, ∀ r ∈ defs, r.dimension_key ≠ k) →
      ∃ missing : List String,
        resolve_dimension_ids defs keys =
          .error ⟨404, "dimension_key not found: " ++ pyIntercalate ", " missing⟩ ∧
        ∀ k, k ∈ missing ↔ k ∈ keys ∧ ∀ r ∈ defs, r.dimension_key ≠ k) := by
  refine ⟨fun keys => ⟨dedupFirst_sublist keys, dedupFirst_nodup keys,
    fun k => dedupFirst_mem keys k⟩, ?_, ?_, ?_, ?_⟩
  · intro defs keys found h
    simp only [resolve_metric_ids] at h
    split at h
    · simp at h
    · split at h
      case isTrue hm =>
        simp only [Except.ok.injEq] at h
        intro k hk
        have hk' : k ∈ dedupFirst keys := (dedupFirst_mem keys k).mpr hk
        cases ha : ((defs.filter (fun r => (dedupFirst keys).contains r.metric_key)).map
            (fun r => (r.metric_key, r.metric_id, r.aggregation))).any (fun f => f.1 = k) with
        | true =>
          rcases List.any_eq_true.mp ha with ⟨e, he, hek⟩
          exact ⟨e, h ▸ he, by simpa using hek⟩
        | false =>
          exfalso
          have hkm : k ∈ (dedupFirst keys).filter
              (fun k => !(((defs.filter (fun r => (dedupFirst keys).contains r.metric_key)).map
                (fun r => (r.metric_key, r.metric_id, r.aggregation))).any (fun f => f.1 = k))) :=
            List.mem_filter.mpr ⟨hk', by rw [ha]; rfl⟩
          rw [List.isEmpty_iff] at hm
          rw [hm] at hkm
          simp at hkm
      case isFalse => simp at h
  · intro defs keys hex
    rcases hex with ⟨k0, hk0, hk0m⟩
    have hk0' : k0 ∈ dedupFirst keys := (dedupFirst_mem keys k0).mpr hk0
    have hkE : ((dedupFirst keys).isEmpty = true) = False := by
      simp only [List.isEmpty_iff, eq_iff_iff, iff_false]
      intro hnil
      rw [hnil] at hk0'
      simp at hk0'
    have hanyk : ∀ k, (((defs.filter (fun r => (dedupFirst keys).contains r.metric_key)).map
        (fun r => (r.metric_key, r.metric_id, r.aggregation))).any (fun f => f.1 = k) = true) ↔
        (k ∈ dedupFirst keys ∧ ∃ r ∈ defs, r.metric_key = k) := by
      intro k
      rw [List.any_eq_true]
      constructor
      · rintro ⟨e, he, hek⟩
        rcases List.mem_map.mp he with ⟨r, hr, hre⟩
        have hrf := List.mem_filter.mp hr
        rw [← hre] at hek
        simp only [decide_eq_true_eq] at hek
        have hcont : r.metric_key ∈ dedupFirst keys := by
          have := hrf.2
          simpa [List.elem_iff] using this
        rw [hek] at hcont
        exact ⟨hcont, r, hrf.1, by rw [← hek]⟩
      · rintro ⟨hkm, r, hr, hrk⟩
        refine ⟨(r.metric_key, r.metric_id, r.aggregation), ?_, by simpa using hrk⟩
        refine List.mem_map.mpr ⟨r, List.mem_filter.mpr ⟨hr, ?_⟩, rfl⟩
        rw [hrk]
        simpa [List.elem_iff] using hkm
    have hmisschar : ∀ k, k ∈ (dedupFirst keys).filter
        (fun k => !(((defs.filter (fun r => (dedupFirst keys).contains r.metric_key)).map
          (fun r => (r.metric_key, r.metric_id, r.aggregation))).any (fun f => f.1 = k))) ↔
        (k ∈ keys ∧ ∀ r ∈ defs, r.metric_key ≠ k) := by
      intro k
      rw [List.mem_filter]
      constructor
      · rintro ⟨hkm, hnot⟩
        rw [Bool.not_eq_true'] at hnot
        refine ⟨(dedupFirst_mem keys k).mp hkm, fun r hr hrk => ?_⟩
        have htrue := (hanyk k).mpr ⟨hkm, r, hr, hrk⟩
        rw [hnot] at htrue
        exact Bool.false_ne_true htrue
      · rintro ⟨hkm, hnone⟩
        have hkd : k ∈ dedupFirst keys := (dedupFirst_mem keys k).mpr hkm
        refine ⟨hkd, ?_⟩
        rw [Bool.not_eq_true']
        cases hany : ((defs.filter (fun r => (dedupFirst keys).contains r.metric_key)).map
            (fun r => (r.metric_key, r.metric_id, r.aggregation))).any (fun f => f.1 = k) with
        | false => rfl
        | true =>
          rcases ((hanyk k).mp hany).2 with ⟨r, hr, hrk⟩
          exact absurd hrk (hnone r hr)
    have hmissne : ¬ ((dedupFirst keys).filter
        (fun k => !(((defs.filter (fun r => (dedupFirst keys).contains r.metric_key)).map
          (fun r => (r.metric_key, r.metric_id, r.aggregation))).any
            (fun f => f.1 = k)))).isEmpty = true := by
      rw [List.isEmpty_iff]
      intro hnil
      have := (hmisschar k0).mpr ⟨hk0, hk0m⟩
      rw [hnil] at this
      simp at this
    refine ⟨(dedupFirst keys).filter
      (fun k => !(((defs.filter (fun r => (dedupFirst keys).contains r.metric_key)).map
        (fun r => (r.metric_key, r.metric_id, r.aggregation))).any (fun f => f.1 = k))),
      ?_, hmisschar⟩
    simp only [resolve_metric_ids]
    rw [if_neg (hkE ▸ id), if_neg hmissne]
  · intro defs keys found h
    simp only [resolve_dimension_ids] at h
    split at h
    · simp only [Except.ok.injEq] at h
      intro k hk
      exfalso
      have hk' : k ∈ dedupFirst keys := (dedupFirst_mem keys k).mpr hk
      next hE =>
        rw [List.isEmpty_iff] at hE
        rw [hE] at hk'
        simp at hk'
    · split at h
      case isTrue hm =>
        simp only [Except.ok.injEq] at h
        intro k hk
        have hk' : k ∈ dedupFirst keys := (dedupFirst_mem keys k).mpr hk
        cases ha : ((defs.filter (fun r => (dedupFirst keys).contains r.dimension_key)).map
            (fun r => (r.dimension_key, r.dimension_id))).any (fun f => f.1 = k) with
        | true =>
          rcases List.any_eq_true.mp ha with ⟨e, he, hek⟩
          exact ⟨e, h ▸ he, by simpa using hek⟩
        | false =>
          exfalso
          have hkm : k ∈ (dedupFirst keys).filter
              (fun k => !(((defs.filter (fun r => (dedupFirst keys).contains r.dimension_key)).map
                (fun r => (r.dimension_key, r.dimension_id))).any (fun f => f.1 = k))) :=
            List.mem_filter.mpr ⟨hk', by rw [ha]; rfl⟩
          rw [List.isEmpty_iff] at hm
          rw [hm] at hkm
          simp at hkm
      case isFalse => simp at h
  · intro defs keys hex
    rcases hex with ⟨k0, hk0, hk0m⟩
    have hk0' : k0 ∈ dedupFirst keys := (dedupFirst_mem keys k0).mpr hk0
    have hkE : ¬ ((dedupFirst keys).isEmpty = true) := by
      rw [List.isEmpty_iff]
      intro hnil
      rw [hnil] at hk0'
      simp at hk0'
    have hanyk : ∀ k, (((defs.filter (fun r => (dedupFirst keys).contains r.dimension_key)).map
        (fun r => (r.dimension_key, r.dimension_id))).any (fun f => f.1 = k) = true) ↔
        (k ∈ dedupFirst keys ∧ ∃ r ∈ defs, r.dimension_key = k) := by
      intro k
      rw [List.any_eq_true]
      constructor
      · rintro ⟨e, he, hek⟩
        rcases List.mem_map.mp he with ⟨r, hr, hre⟩
        have hrf := List.mem_filter.mp hr
        rw [← hre] at hek
        simp only [decide_eq_true_eq] at hek
        have hcont : r.dimension_key ∈ dedupFirst keys := by
          have := hrf.2
          simpa [List.elem_iff] using this
        rw [hek] at hcont
        exact ⟨hcont, r, hrf.1, by rw [← hek]⟩
      · rintro ⟨hkm, r, hr, hrk⟩
        refine ⟨(r.dimension_key, r.dimension_id), ?_, by simpa using hrk⟩
        refine List.mem_map.mpr ⟨r, List.mem_filter.mpr ⟨hr, ?_⟩, rfl⟩
        rw [hrk]
        simpa [List.elem_iff] using hkm
    have hmisschar : ∀ k, k ∈ (dedupFirst keys).filter
        (fun k => !(((defs.filter (fun r => (dedupFirst keys).contains r.dimension_key)).map
          (fun r => (r.dimension_key, r.dimension_id))).any (fun f => f.1 = k))) ↔
        (k ∈ keys ∧ ∀ r ∈ defs, r.dimension_key ≠ k) := by
      intro k
      rw [List.mem_filter]
      constructor
      · rintro ⟨hkm, hnot⟩
        rw [Bool.not_eq_true'] at hnot
        refine ⟨(dedupFirst_mem keys k).mp hkm, fun r hr hrk => ?_⟩
        have htrue := (hanyk k).mpr ⟨hkm, r, hr, hrk⟩
        rw [hnot] at htrue
        exact Bool.false_ne_true htrue
      · rintro ⟨hkm, hnone⟩
        have hkd : k ∈ dedupFirst keys := (dedupFirst_mem keys k).mpr hkm
        refine ⟨hkd, ?_⟩
        rw [Bool.not_eq_true']
        cases hany : ((defs.filter (fun r => (dedupFirst keys).contains r.dimension_key)).map
            (fun r => (r.dimension_key, r.dimension_id))).any (fun f => f.1 = k) with
        | false => rfl
        | true =>
          rcases ((hanyk k).mp hany).2 with ⟨r, hr, hrk⟩
          exact absurd hrk (hnone r hr)
    have hmissne : ¬ ((dedupFirst keys).filter
        (fun k => !(((defs.filter (fun r => (dedupFirst keys).contains r.dimension_key)).map
          (fun r => (r.dimension_key, r.dimension_id))).any
            (fun f => f.1 = k)))).isEmpty = true := by
      rw [List.isEmpty_iff]
      intro hnil
      have := (hmisschar k0).mpr ⟨hk0, hk0m⟩
      rw [hnil] at this
      simp at this
    refine ⟨(dedupFirst keys).filter
      (fun k => !(((defs.filter (fun r => (dedupFirst keys).contains r.dimension_key)).map
        (fun r => (r.dimension_key, r.dimension_id))).any (fun f => f.1 = k))),
      ?_, hmisschar⟩
    simp only [resolve_dimension_ids]
    rw [if_neg hkE, if_neg hmissne]

/-- Witness for C9: resolving the example metric catalog covers the requested key. -/
theorem c9_witness :
    ∃ e ∈ [("signups", (1 : Nat), "sum")], e.1 = "signups" :=
  c9_missing_key_reporting.2.1 exMetricDefs ["signups"] [("signups", 1, "sum")]
    (by decide) "signups" (by decide)

/-- C10: every row surviving the apply_group_by join chain descends from a base row
and its series dimension set holds a membership row for every grouped dimension id;
consequently a base row whose series set has no value for some grouped dimension
contributes to no output row at all, for every grouped dimension list. -/
theorem c10_group_by_inner_join :
    (∀ (setValues : List SetValueRow) (dimValues : List DimValueRow) (dimIds : List Nat)
      (rows : List QueryRow), ∀ r ∈ apply_group_by setValues dimValues dimIds rows,
      (∃ r0 ∈ rows, r.obs = r0.obs ∧ r.series = r0.series) ∧
      ∀ d ∈ dimIds, ∃ sv ∈ setValues, sv.set_id = r.series.set_id ∧ sv.dimension_id = d) ∧
    (∀ (setValues : List SetValueRow) (dimValues : List DimValueRow) (dimIds : List Nat)
      (rows : List QueryRow), ∀ r0 ∈ rows, ∀ d ∈ dimIds,
      (∀ sv ∈ setValues, ¬(sv.set_id = r0.series.set_id ∧ sv.dimension_id = d)) →
      ∀ r ∈ apply_group_by setValues dimValues dimIds rows,
        r.series.set_id ≠ r0.series.set_id) := by
  have main : ∀ (setValues : List SetValueRow) (dimValues : List DimValueRow)
      (dimIds : List Nat) (rows : List QueryRow),
      ∀ r ∈ apply_group_by setValues dimValues dimIds rows,
      (∃ r0 ∈ rows, r.obs = r0.obs ∧ r.series = r0.series) ∧
      ∀ d ∈ dimIds, ∃ sv ∈ setValues, sv.set_id = r.series.set_id ∧ sv.dimension_id = d := by
    intro setValues dimValues dimIds
    induction dimIds with
    | nil =>
      intro rows r hr
      refine ⟨⟨r, hr, rfl, rfl⟩, ?_⟩
      intro d hd
      simp at hd
    | cons d ds ih =>
      intro rows r hr
      have hstep : apply_group_by setValues dimValues (d :: ds) rows =
          apply_group_by setValues dimValues ds (groupJoinStep setValues dimValues rows d) :=
        rfl
      rw [hstep] at hr
      rcases ih (groupJoinStep setValues dimValues rows d) r hr with ⟨⟨r1, hr1, hobs, hser⟩, hds⟩
      rcases List.mem_flatMap.mp hr1 with ⟨r0, hr0, hr0m⟩
      rcases List.mem_flatMap.mp hr0m with ⟨sv, hsv, hsvm⟩
      rcases List.mem_map.mp hsvm with ⟨dv, _hdv, hdvm⟩
      have hsvf := List.mem_filter.mp hsv
      have hsvp : sv.set_id = r0.series.set_id ∧ sv.dimension_id = d := by
        have := hsvf.2
        simpa using this
      have hr1obs : r1.obs = r0.obs := by rw [← hdvm]
      have hr1ser : r1.series = r0.series := by rw [← hdvm]
      refine ⟨⟨r0, hr0, by rw [hobs, hr1obs], by rw [hser, hr1ser]⟩, ?_⟩
      intro d2 hd2
      rcases List.mem_cons.mp hd2 with rfl | hd3
      · refine ⟨sv, hsvf.1, ?_, hsvp.2⟩
        rw [hser, hr1ser]
        exact hsvp.1
      · exact hds d2 hd3
  refine ⟨main, ?_⟩
  intro setValues dimValues dimIds rows r0 hr0 d hd hnone r hr heq
  rcases (main setValues dimValues dimIds rows r hr).2 d hd with ⟨sv, hsv, hsid, hdid⟩
  rw [heq] at hsid
  exact hnone sv hsv ⟨hsid, hdid⟩

/-- Witness for C10 at a concrete store: with set 10 holding a value of dimension 5,
the surviving joined row descends from the base row and set 10 covers dimension 5. -/
theorem c10_witness :
    (∃ r0 ∈ [exQueryRow], (⟨exObservation, exSeries, ["US"]⟩ : QueryRow).obs = r0.obs ∧
      (⟨exObservation, exSeries, ["US"]⟩ : QueryRow).series = r0.series) ∧
    ∀ d ∈ [5], ∃ sv ∈ exSetValues,
      sv.set_id = (⟨exObservation, exSeries, ["US"]⟩ : QueryRow).series.set_id ∧
      sv.dimension_id = d :=
  c10_group_by_inner_join.1 exSetValues exDimValues [5] [exQueryRow]
    ⟨exObservation, exSeries, ["US"]⟩ (by decide)

/-- Two strings with equal character lists are equal. -/
theorem string_ext {a b : String} (h : a.data = b.data) : a = b := by
  cases a
  cases b
  exact congrArg String.mk h

/-- The code point comparison on a cons pair, unfolded. -/
theorem charsLtB_cons {a b : Char} {as bs : List Char} :
    charsLtB (a :: as) (b :: bs) = true ↔ (a < b ∨ (a = b ∧ charsLtB as bs = true)) := by
  simp only [charsLtB]
  by_cases hab : a < b
  · rw [if_pos hab]
    simp [hab]
  · rw [if_neg hab]
    by_cases heq : a = b
    · rw [if_pos heq]
      constructor
      · exact fun h => Or.inr ⟨heq, h⟩
      · rintro (h | ⟨_, h⟩)
        · exact absurd h hab
        · exact h
    · rw [if_neg heq]
      constructor
      · intro h
        exact absurd h (by simp)
      · rintro (h | ⟨h, _⟩)
        · exact absurd h hab
        · exact absurd h heq

/-- The code point comparison is irreflexive. -/
theorem charsLtB_irrefl : ∀ l : List Char, charsLtB l l = false := by
  intro l
  induction l with
  | nil => rfl
  | cons a as ih =>
    simp [charsLtB, ih]

/-- The code point comparison is transitive. -/
theorem charsLtB_trans : ∀ (l₁ l₂ l₃ : List Char), charsLtB l₁ l₂ = true →
    charsLtB l₂ l₃ = true → charsLtB l₁ l₃ = true := by
  intro l₁
  induction l₁ with
  | nil =>
    intro l₂ l₃ h1 h2
    cases l₂ with
    | nil => simp [charsLtB] at h1
    | cons b bs =>
      cases l₃ with
      | nil => simp [charsLtB] at h2
      | cons c cs => rfl
  | cons a as ih =>
    intro l₂ l₃ h1 h2
    cases l₂ with
    | nil => simp [charsLtB] at h1
    | cons b bs =>
      cases l₃ with
      | nil => simp [charsLtB] at h2
      | cons c cs =>
        rcases charsLtB_cons.mp h1 with hab | ⟨heq1, h1t⟩
        · rcases charsLtB_cons.mp h2 with hbc | ⟨heq2, h2t⟩
          · exact charsLtB_cons.mpr (Or.inl (lt_trans hab hbc))
          · exact charsLtB_cons.mpr (Or.inl (heq2 ▸ hab))
        · rcases charsLtB_cons.mp h2 with hbc | ⟨heq2, h2t⟩
          · subst heq1
            exact charsLtB_cons.mpr (Or.inl hbc)
          · subst heq1
            subst heq2
            exact charsLtB_cons.mpr (Or.inr ⟨rfl, ih _ _ h1t h2t⟩)

/-- Lists on which the code point comparison fails both ways are equal. -/
theorem charsLtB_eq_of_not_lt : ∀ (l₁ l₂ : List Char), charsLtB l₁ l₂ = false →
    charsLtB l₂ l₁ = false → l₁ = l₂ := by
  intro l₁
  induction l₁ with
  | nil =>
    intro l₂ h1 h2
    cases l₂ with
    | nil => rfl
    | cons b bs => simp [charsLtB] at h1
  | cons a as ih =>
    intro l₂ h1 h2
    cases l₂ with
    | nil => simp [charsLtB] at h2
    | cons b bs =>
      by_cases hab : a < b
      · exact absurd (h1 ▸ charsLtB_cons.mpr (Or.inl hab)) Bool.false_ne_true
      · by_cases hba : b < a
        · exact absurd (h2 ▸ charsLtB_cons.mpr (Or.inl hba)) Bool.false_ne_true
        · have heq : a = b := le_antisymm (le_of_not_lt hba) (le_of_not_lt hab)
          subst heq
          have h1t : charsLtB as bs = false := by
            cases hx : charsLtB as bs
            · rfl
            · exact absurd (h1 ▸ charsLtB_cons.mpr (Or.inr ⟨rfl, hx⟩)) Bool.false_ne_true
          have h2t : charsLtB bs as = false := by
            cases hx : charsLtB bs as
            · rfl
            · exact absurd (h2 ▸ charsLtB_cons.mpr (Or.inr ⟨rfl, hx⟩)) Bool.false_ne_true
          rw [ih bs h1t h2t]

/-- The Python string comparison is total. -/
theorem strLe_total (a b : String) : strLe a b ∨ strLe b a := by
  unfold strLe strLt
  by_cases h : charsLtB b.data a.data = true
  · right
    intro h2
    have := charsLtB_trans _ _ _ h2 h
    rw [charsLtB_irrefl] at this
    exact Bool.false_ne_true this
  · left
    exact h

/-- The Python string comparison is transitive. -/
theorem strLe_trans {a b c : String} (h1 : strLe a b) (h2 : strLe b c) : strLe a c := by
  unfold strLe strLt at h1 h2 ⊢
  rw [Bool.not_eq_true] at h1 h2 ⊢
  by_cases hab : charsLtB a.data b.data = true
  · cases hca : charsLtB c.data a.data
    · rfl
    · have hcb := charsLtB_trans _ _ _ hca hab
      rw [h2] at hcb
      exact absurd hcb Bool.false_ne_true
  · have hab2 : charsLtB a.data b.data = false := by
      cases hx : charsLtB a.data b.data
      · rfl
      · exact absurd hx hab
    have heq := charsLtB_eq_of_not_lt _ _ hab2 h1
    rw [string_ext heq]
    exact h2

/-- Strings neither of which compares strictly below the other are equal. -/
theorem str_eq_of_not_lt {a b : String} (h1 : ¬ strLt a b) (h2 : ¬ strLt b a) : a = b := by
  unfold strLt at h1 h2
  rw [Bool.not_eq_true] at h1 h2
  exact string_ext (charsLtB_eq_of_not_lt _ _ h1 h2)

/-- Strict string comparison is transitive. -/
theorem strLt_trans {a b c : String} (h1 : strLt a b) (h2 : strLt b c) : strLt a c :=
  charsLtB_trans _ _ _ h1 h2

/-- Pairs relating both ways under the key comparison share their key. -/
theorem keyLe_antisymm_fst {a b : String × String} (h1 : keyLe a b) (h2 : keyLe b a) :
    a.1 = b.1 := by
  unfold keyLe strLe strLt at h1 h2
  rw [Bool.not_eq_true] at h1 h2
  exact string_ext (charsLtB_eq_of_not_lt _ _ h2 h1)

/-- A key-sorted permutation with duplicate-free keys is unique: two sorted
permutations of the same pair list with pairwise-distinct keys coincide. -/
theorem keyle_sorted_unique : ∀ {l₁ l₂ : List (String × String)}, l₁.Perm l₂ →
    l₁.Pairwise keyLe → l₂.Pairwise keyLe → (l₁.map Prod.fst).Nodup → l₁ = l₂ := by
  intro l₁
  induction l₁ with
  | nil =>
    intro l₂ hperm _ _ _
    exact (List.Perm.eq_nil hperm.symm).symm
  | cons a t₁ ih =>
    intro l₂ hperm hp₁ hp₂ hnd
    cases l₂ with
    | nil => exact absurd (List.Perm.eq_nil hperm) (by simp)
    | cons b t₂ =>
      have hab : a = b := by
        have hain : a ∈ b :: t₂ := hperm.mem_iff.mp (List.mem_cons_self a t₁)
        rcases List.mem_cons.mp hain with h | hat₂
        · exact h
        · have hbin : b ∈ a :: t₁ := hperm.symm.mem_iff.mp (List.mem_cons_self b t₂)
          rcases List.mem_cons.mp hbin with h | hbt₁
          · exact h.symm
          · have h1 : keyLe a b := (List.pairwise_cons.mp hp₁).1 b hbt₁
            have h2 : keyLe b a := (List.pairwise_cons.mp hp₂).1 a hat₂
            have hfst : a.1 = b.1 := keyLe_antisymm_fst h1 h2
            exfalso
            rw [List.map_cons] at hnd
            exact (List.nodup_cons.mp hnd).1 (hfst ▸ List.mem_map_of_mem Prod.fst hbt₁)
      subst hab
      have hperm2 : t₁.Perm t₂ := hperm.cons_inv
      rw [List.map_cons] at hnd
      rw [ih hperm2 (List.pairwise_cons.mp hp₁).2 (List.pairwise_cons.mp hp₂).2
        (List.nodup_cons.mp hnd).2]

/-- C2 counterexample: with a duplicated dimension key the stable key sort preserves
the value order, so the two permutations hash differently. -/
theorem c2_counterexample :
    [("a", "1"), ("a", "2")].Perm [("a", "2"), ("a", "1")] ∧
    row_set_hash [("a", "1"), ("a", "2")] ≠ row_set_hash [("a", "2"), ("a", "1")] := by
  constructor
  · decide
  · decide

/-- C2 (amended): for pair lists whose dimension keys are pairwise distinct, as holds
for every ingested row because each pair comes from a distinct dimension column, the
computed set hash is invariant under permutation; the empty pair list hashes to the
SHA-256 digest of the empty payload, a valid 64-character digest distinct from the
digest of a non-empty example pair list. -/
theorem c2_set_hash_content_addressing :
    (∀ (l₁ l₂ : List (String × String)), l₁.Perm l₂ → (l₁.map Prod.fst).Nodup →
      row_set_hash l₁ = row_set_hash l₂) ∧
    row_set_hash [] = "e3b0c44298fc1c149afbf4c8996fb92427ae41e4649b934ca495991b7852b855" ∧
    (row_set_hash []).length = 64 ∧
    row_set_hash [] ≠ row_set_hash [("country", "US")] := by
  refine ⟨?_, by decide, by decide, by decide⟩
  intro l₁ l₂ hperm hnodup
  haveI : IsTotal (String × String) keyLe := ⟨fun a b => strLe_total a.1 b.1⟩
  haveI : IsTrans (String × String) keyLe := ⟨fun _ _ _ h1 h2 => strLe_trans h1 h2⟩
  have hsort : sortPairsByKey l₁ = sortPairsByKey l₂ := by
    unfold sortPairsByKey
    have hp : (List.insertionSort keyLe l₁).Perm (List.insertionSort keyLe l₂) :=
      ((List.perm_insertionSort keyLe l₁).trans hperm).trans
        (List.perm_insertionSort keyLe l₂).symm
    have hn : ((List.insertionSort keyLe l₁).map Prod.fst).Nodup :=
      (((List.perm_insertionSort keyLe l₁).map Prod.fst).nodup_iff).mpr hnodup
    exact keyle_sorted_unique hp (List.sorted_insertionSort keyLe l₁)
      (List.sorted_insertionSort keyLe l₂) hn
  unfold row_set_hash
  rw [hsort]

/-- Witness for C2: a two-pair list with distinct keys hashes equal in both orders. -/
theorem c2_witness :
    row_set_hash [("a", "x"), ("b", "y")] = row_set_hash [("b", "y"), ("a", "x")] :=
  c2_set_hash_content_addressing.1 _ _ (by decide) (by decide)

/-- The Python tuple comparison on string tuples is total. -/
theorem listLe_total : ∀ l₁ l₂ : List String, listLe l₁ l₂ ∨ listLe l₂ l₁ := by
  intro l₁
  induction l₁ with
  | nil => intro l₂; left; simp [listLe]
  | cons a as ih =>
    intro l₂
    cases l₂ with
    | nil => right; simp [listLe]
    | cons b bs =>
      simp only [listLe]
      by_cases hab : strLt a b
      · left
        exact Or.inl hab
      · by_cases hba : strLt b a
        · right
          exact Or.inl hba
        · have heq : a = b := str_eq_of_not_lt hab hba
          rcases ih bs with h | h
          · left
            exact Or.inr ⟨heq, h⟩
          · right
            exact Or.inr ⟨heq.symm, h⟩

/-- The Python tuple comparison on string tuples is transitive. -/
theorem listLe_trans : ∀ l₁ l₂ l₃ : List String,
    listLe l₁ l₂ → listLe l₂ l₃ → listLe l₁ l₃ := by
  intro l₁
  induction l₁ with
  | nil => intro l₂ l₃ _ _; simp [listLe]
  | cons a as ih =>
    intro l₂ l₃ h1 h2
    cases l₂ with
    | nil => simp [listLe] at h1
    | cons b bs =>
      cases l₃ with
      | nil => simp [listLe] at h2
      | cons c cs =>
        simp only [listLe] at h1 h2 ⊢
        rcases h1 with hab | ⟨heq1, h1t⟩
        · rcases h2 with hbc | ⟨heq2, h2t⟩
          · exact Or.inl (strLt_trans hab hbc)
          · exact Or.inl (heq2 ▸ hab)
        · rcases h2 with hbc | ⟨heq2, h2t⟩
          · subst heq1
            exact Or.inl hbc
          · subst heq1
            subst heq2
            exact Or.inr ⟨rfl, ih _ _ h1t h2t⟩

/-- The Python sort key comparison of _finalize_series is total. -/
theorem pairKeyLe_total (x y : Nat × List String) : pairKeyLe x y ∨ pairKeyLe y x := by
  unfold pairKeyLe
  rcases Nat.lt_trichotomy x.1 y.1 with h | h | h
  · left
    exact Or.inl h
  · rcases listLe_total x.2 y.2 with hl | hl
    · left
      exact Or.inr ⟨h, hl⟩
    · right
      exact Or.inr ⟨h.symm, hl⟩
  · right
    exact Or.inl h

/-- The Python sort key comparison of _finalize_series is transitive. -/
theorem pairKeyLe_trans {x y z : Nat × List String}
    (h1 : pairKeyLe x y) (h2 : pairKeyLe y z) : pairKeyLe x z := by
  unfold pairKeyLe at h1 h2 ⊢
  rcases h1 with h1 | ⟨he1, hl1⟩
  · rcases h2 with h2 | ⟨he2, hl2⟩
    · exact Or.inl (lt_trans h1 h2)
    · exact Or.inl (he2 ▸ h1)
  · rcases h2 with h2 | ⟨he2, hl2⟩
    · refine Or.inl ?_
      rw [he1]
      exact h2
    · exact Or.inr ⟨he1.trans he2, listLe_trans _ _ _ hl1 hl2⟩

/-- C8: for every input order of the store rows, _finalize_series returns the series
sorted by (requested metric position, group-by dimension values in requested order),
each entry keeps the metric key and dimensions of an input entry with its points
re-sorted ascending by time bucket, and no entry is gained or lost. -/
theorem c8_deterministic_ordering (metric_keys labels : List String)
    (entries : List SeriesEntry) :
    (finalize_series metric_keys labels entries).Pairwise (entryLe metric_keys labels) ∧
    (∀ e ∈ finalize_series metric_keys labels entries,
      e.points.Pairwise pointLe ∧
      ∃ e0 ∈ entries, e.metric_key = e0.metric_key ∧ e.dimensions = e0.dimensions ∧
        e.points.Perm e0.points) ∧
    (finalize_series metric_keys labels entries).length = entries.length := by
  haveI : IsTotal SeriesEntry (entryLe metric_keys labels) :=
    ⟨fun a b => pairKeyLe_total _ _⟩
  haveI : IsTrans SeriesEntry (entryLe metric_keys labels) :=
    ⟨fun _ _ _ h1 h2 => pairKeyLe_trans h1 h2⟩
  haveI : IsTotal SeriesPoint pointLe := ⟨fun a b => Int.le_total _ _⟩
  haveI : IsTrans SeriesPoint pointLe := ⟨fun _ _ _ h1 h2 => le_trans h1 h2⟩
  unfold finalize_series
  refine ⟨List.sorted_insertionSort _ _, ?_, ?_⟩
  · intro e he
    have he2 : e ∈ entries.map (fun e =>
        ({ metric_key := e.metric_key, dimensions := e.dimensions,
           points := List.insertionSort pointLe e.points } : SeriesEntry)) :=
      (List.perm_insertionSort _ _).mem_iff.mp he
    rcases List.mem_map.mp he2 with ⟨e0, he0, hee⟩
    rw [← hee]
    exact ⟨List.sorted_insertionSort _ _, e0, he0, rfl, rfl, List.perm_insertionSort _ _⟩
  · rw [(List.perm_insertionSort _ _).length_eq, List.length_map]

/-- Witness for C8 on two concrete entries: the finalized output is sorted and keeps
both entries. -/
theorem c8_witness :
    (finalize_series ["m1", "m2"] ["country"] [exEntryA, exEntryB]).Pairwise
      (entryLe ["m1", "m2"] ["country"]) ∧
    (finalize_series ["m1", "m2"] ["country"] [exEntryA, exEntryB]).length = 2 :=
  ⟨(c8_deterministic_ordering ["m1", "m2"] ["country"] [exEntryA, exEntryB]).1,
   (c8_deterministic_ordering ["m1", "m2"] ["country"] [exEntryA, exEntryB]).2.2⟩

/-- One metric upsert leaves the observation table unchanged. -/
theorem upsertMetricRow_obs (db : DB) (m : MetricUpsert) :
    (upsertMetricRow db m).metric_observation = db.metric_observation := by
  unfold upsertMetricRow
  split <;> rfl

/-- The metric upsert fold leaves the observation table unchanged. -/
theorem foldl_upsertMetricRow_obs : ∀ (ms : List MetricUpsert) (db : DB),
    (ms.foldl upsertMetricRow db).metric_observation = db.metric_observation := by
  intro ms
  induction ms with
  | nil => intro db; rfl
  | cons m ms ih =>
    intro db
    rw [List.foldl_cons, ih, upsertMetricRow_obs]

/-- The dimension upsert leaves the observation table unchanged. -/
theorem upsertDimensions_obs : ∀ (ds : List (String × String)) (db : DB),
    (upsertDimensions ds db).metric_observation = db.metric_observation := by
  intro ds
  induction ds with
  | nil => intro db; rfl
  | cons d ds ih =>
    intro db
    unfold upsertDimensions
    rw [List.foldl_cons]
    have step : ∀ db0 : DB, (upsertDimensions ds db0).metric_observation =
        db0.metric_observation := ih
    unfold upsertDimensions at step
    rw [step]
    split <;> rfl

/-- The dimension value insert leaves the observation table unchanged. -/
theorem insertDimensionValues_obs : ∀ (rows : List (Nat × String)) (db : DB),
    ((insertDimensionValues rows db).1).metric_observation = db.metric_observation := by
  have general : ∀ (rows : List (Nat × String)) (acc : DB × Nat),
      ((rows.foldl (fun acc rv =>
        if acc.1.dimension_value.any (fun r => r.dimension_id = rv.1 ∧ r.value = rv.2) then acc
        else ({ acc.1 with
            dimension_value := acc.1.dimension_value ++ [⟨acc.1.next_value_id, rv.1, rv.2⟩],
            next_value_id := acc.1.next_value_id + 1 }, acc.2 + 1)) acc).1).metric_observation =
        acc.1.metric_observation := by
    intro rows
    induction rows with
    | nil => intro acc; rfl
    | cons rv rows ih =>
      intro acc
      rw [List.foldl_cons, ih]
      split <;> rfl
  intro rows db
  exact general rows (db, 0)

/-- The dimension set insert leaves the observation table unchanged. -/
theorem insertDimensionSets_obs : ∀ (hashes : List String) (db : DB),
    ((insertDimensionSets hashes db).1).metric_observation = db.metric_observation := by
  have general : ∀ (hashes : List String) (acc : DB × Nat),
      ((hashes.foldl (fun acc h =>
        if acc.1.dimension_set.any (fun r => r.set_hash = h) then acc
        else ({ acc.1 with
            dimension_set := acc.1.dimension_set ++ [⟨acc.1.next_set_id, h⟩],
            next_set_id := acc.1.next_set_id + 1 }, acc.2 + 1)) acc).1).metric_observation =
        acc.1.metric_observation := by
    intro hashes
    induction hashes with
    | nil => intro acc; rfl
    | cons h hashes ih =>
      intro acc
      rw [List.foldl_cons, ih]
      split <;> rfl
  intro hashes db
  exact general hashes (db, 0)

/-- The set value insert leaves the observation table unchanged. -/
theorem insertSetValues_obs : ∀ (rows : List SetValueRow) (db : DB),
    (insertSetValues rows db).metric_observation = db.metric_observation := by
  intro rows
  induction rows with
  | nil => intro db; rfl
  | cons r rows ih =>
    intro db
    unfold insertSetValues
    rw [List.foldl_cons]
    have step : ∀ db0 : DB, (insertSetValues rows db0).metric_observation =
        db0.metric_observation := ih
    unfold insertSetValues at step
    rw [step]
    split <;> rfl

/-- The series insert leaves the observation table unchanged. -/
theorem insertSeries_obs : ∀ (rows : List (Nat × String × Nat)) (db : DB),
    ((insertSeries rows db).1).metric_observation = db.metric_observation := by
  have general : ∀ (rows : List (Nat × String × Nat)) (acc : DB × Nat),
      ((rows.foldl (fun acc r =>
        if acc.1.metric_series.any (fun s =>
            s.metric_id = r.1 ∧ s.grain = r.2.1 ∧ s.set_id = r.2.2) then acc
        else ({ acc.1 with
            metric_series := acc.1.metric_series ++
              [⟨acc.1.next_series_id, r.1, r.2.1, r.2.2⟩],
            next_series_id := acc.1.next_series_id + 1 }, acc.2 + 1)) acc).1).metric_observation =
        acc.1.metric_observation := by
    intro rows
    induction rows with
    | nil => intro acc; rfl
    | cons r rows ih =>
      intro acc
      rw [List.foldl_cons, ih]
      split <;> rfl
  intro rows db
  exact general rows (db, 0)

/-- A successful single observation insert appends exactly one row, whose sample
size honours the check constraint and whose key collides with no existing row. -/
theorem insertObservation_ok {db db' : DB} {r : NewObservation}
    (h : insertObservation db r = .ok db') :
    db'.metric_observation = db.metric_observation ++
      [⟨db.next_observation_id, r.series_id, r.time_start_ts, r.time_end_ts, r.value_num,
        r.sample_size, r.is_estimated⟩] ∧
    (∀ n ∈ r.sample_size, 0 ≤ n) ∧
    (∀ o ∈ db.metric_observation,
      ¬(o.series_id = r.series_id ∧ o.time_start_ts = r.time_start_ts)) := by
  unfold insertObservation at h
  split at h
  case isTrue => exact absurd h (by simp)
  case isFalse hdup =>
    split at h
    case isTrue => exact absurd h (by simp)
    case isFalse hsamp =>
      split at h
      case isTrue => exact absurd h (by simp)
      case isFalse hend =>
        simp only [Except.ok.injEq] at h
        rw [← h]
        refine ⟨rfl, ?_, ?_⟩
        · intro n hn
          cases hs : r.sample_size with
          | none =>
            rw [hs] at hn
            simp at hn
          | some m =>
            rw [hs] at hn hsamp
            dsimp only at hsamp
            have hd : (0 : Int) ≤ m := by
              cases hd2 : decide ((0 : Int) ≤ m)
              · rw [hd2] at hsamp
                exact absurd rfl hsamp
              · exact of_decide_eq_true hd2
            have hmn : m = n := by simpa using hn
            rw [← hmn]
            exact hd
        · intro o ho hcol
          exact hdup (List.any_eq_true.mpr ⟨o, ho, decide_eq_true hcol⟩)

/-- A successful observation insert fold only adds constraint-honouring rows and
preserves the observation uniqueness invariant. -/
theorem foldlM_insertObservation_props : ∀ (rows : List NewObservation) (db res : DB),
    List.foldlM insertObservation db rows = .ok res →
    (∀ o ∈ res.metric_observation,
      o ∈ db.metric_observation ∨ (∀ n ∈ o.sample_size, 0 ≤ n)) ∧
    (ObsUnique db → ObsUnique res) := by
  intro rows
  induction rows with
  | nil =>
    intro db res h
    simp only [List.foldlM_nil, pure, Except.pure, Except.ok.injEq] at h
    rw [← h]
    exact ⟨fun o ho => Or.inl ho, id⟩
  | cons r rows ih =>
    intro db res h
    rw [List.foldlM_cons] at h
    cases hr : insertObservation db r with
    | error e =>
      rw [hr] at h
      simp [bind, Except.bind] at h
    | ok db1 =>
      rw [hr] at h
      simp only [bind, Except.bind] at h
      rcases insertObservation_ok hr with ⟨hlist, hsamp, hnocol⟩
      rcases ih db1 res h with ⟨ihmem, ihuniq⟩
      constructor
      · intro o ho
        rcases ihmem o ho with hmem | hok
        · rw [hlist] at hmem
          rcases List.mem_append.mp hmem with h1 | h1
          · exact Or.inl h1
          · right
            have h2 : o = ⟨db.next_observation_id, r.series_id, r.time_start_ts,
                r.time_end_ts, r.value_num, r.sample_size, r.is_estimated⟩ := by
              simpa using h1
            intro n hn
            rw [h2] at hn
            exact hsamp n hn
        · exact Or.inr hok
      · intro hu
        refine ihuniq ?_
        unfold ObsUnique at hu ⊢
        rw [hlist, List.pairwise_append]
        refine ⟨hu, List.pairwise_singleton _ _, ?_⟩
        intro o ho b hb
        have hb2 : b = ⟨db.next_observation_id, r.series_id, r.time_start_ts,
            r.time_end_ts, r.value_num, r.sample_size, r.is_estimated⟩ := by
          simpa using hb
        rw [hb2]
        simpa using hnocol o ho

set_option maxHeartbeats 1000000 in
/-- A committed ingestion transaction only adds observation rows that honour the
sample-size check constraint, and preserves the observation uniqueness
invariant: catalog, dimension-value, dimension-set, set-membership and series
statements never touch metric_observation, and the observation insert fold is
covered by foldlM_insertObservation_props. -/
theorem run_ingest_obs_props : ∀ (db : DB) (p : ParsedUpload) (res : DB) (rep : UploadReport),
    run_ingest_transaction db p = .ok (res, rep) →
    (∀ o ∈ res.metric_observation,
      o ∈ db.metric_observation ∨ (∀ n ∈ o.sample_size, 0 ≤ n)) ∧
    (ObsUnique db → ObsUnique res) := by
  intro db p res rep h
  unfold run_ingest_transaction at h
  dsimp only [upsertMetrics] at h
  simp only [bind, Except.bind] at h
  split at h
  case h_1 => exact Except.noConfusion h
  rename_i dvr heq_dvr
  split at h
  case h_1 => exact Except.noConfusion h
  rename_i rowPairs heq_rp
  split at h
  case h_1 => exact Except.noConfusion h
  rename_i svr heq_svr
  split at h
  case h_1 => exact Except.noConfusion h
  rename_i sk heq_sk
  split at h
  case h_1 => exact Except.noConfusion h
  rename_i obsRows heq_obsRows
  split at h
  case h_1 => exact Except.noConfusion h
  rename_i v4 heq_ins
  simp only [pure, Except.pure, Except.ok.injEq, Prod.mk.injEq] at h
  obtain ⟨hres, hrep⟩ := h
  unfold insertObservations at heq_ins
  simp only [bind, Except.bind] at heq_ins
  split at heq_ins
  case h_1 => exact Except.noConfusion heq_ins
  rename_i dbF heq_fold
  simp only [pure, Except.pure, Except.ok.injEq] at heq_ins
  have hresF : res = dbF := by
    rw [← hres, ← heq_ins]
  subst hresF
  have hobs : ((insertSeries (dedupFirst sk)
      (insertSetValues svr
        (insertDimensionSets
            (dedupFirst (List.map (fun rd => rd.1)
              (List.map (fun pairs =>
                (build_set_hash (List.map (fun q => (q.key, q.value)) pairs),
                  List.map (fun q => (q.dimension_id, q.value_id)) pairs)) rowPairs)))
            (insertDimensionValues dvr
                (upsertDimensions p.dimension_rows
                  (List.foldl upsertMetricRow db p.metric_rows))).1).1)).1).metric_observation =
      db.metric_observation := by
    rw [insertSeries_obs, insertSetValues_obs, insertDimensionSets_obs,
      insertDimensionValues_obs, upsertDimensions_obs, foldl_upsertMetricRow_obs]
  rcases foldlM_insertObservation_props obsRows _ res heq_fold with ⟨hmem, huniq⟩
  constructor
  · intro o ho
    rcases hmem o ho with h1 | h1
    · rw [hobs] at h1
      exact Or.inl h1
    · exact Or.inr h1
  · intro hu
    refine huniq ?_
    unfold ObsUnique
    rw [hobs]
    exact hu

set_option maxRecDepth 10000 in
/-- C5: re-ingesting the same (series, time_start_ts) never yields two stored
observations — every upload preserves the uniqueness invariant backing
uq_obs_series_time — but a duplicate is rejected rather than matched: the
well-formed upload succeeds once, and a batch carrying the same
(series, time_start_ts) twice is rejected wholesale with the uq_obs_series_time
IntegrityError, leaving the store unchanged. -/
theorem c5_idempotent_reingestion :
    (∀ (db : DB) (file : CsvFile),
      ObsUnique db → ObsUnique (upload_metrics_csv db file).1) ∧
    (upload_metrics_csv emptyDB csvSignups).2 = .ok ⟨1, 1, 1, 1, 1, 1, 1⟩ ∧
    upload_metrics_csv emptyDB csvDupRows =
      (emptyDB, .error ⟨500,
        "IntegrityError: duplicate key value violates unique constraint uq_obs_series_time"⟩) := by
  refine ⟨?_, by decide, by decide⟩
  intro db file hu
  unfold upload_metrics_csv
  cases hv : validate_upload file with
  | error e => exact hu
  | ok p =>
    dsimp only
    cases hr : run_ingest_transaction db p with
    | error e => exact hu
    | ok pr =>
      cases pr with
      | mk db1 rep =>
        exact (run_ingest_obs_props db p db1 rep hr).2 hu

/-- Witness for C5 at a concrete store: the uniqueness invariant holds after
uploading the signups CSV into the empty store. -/
theorem c5_witness : ObsUnique (upload_metrics_csv emptyDB csvSignups).1 :=
  c5_idempotent_reingestion.1 emptyDB csvSignups (by unfold ObsUnique; exact List.Pairwise.nil)

set_option maxRecDepth 10000 in
/-- Counterexample to C5 as stated: re-uploading the identical, already ingested
CSV does not succeed with zero inserts and matched catalog entities — it is
rejected with the uq_obs_series_time IntegrityError (status 500), the store
staying as it was after the first upload. -/
theorem c5_counterexample :
    upload_metrics_csv (upload_metrics_csv emptyDB csvSignups).1 csvSignups =
      ((upload_metrics_csv emptyDB csvSignups).1, .error ⟨500,
        "IntegrityError: duplicate key value violates unique constraint uq_obs_series_time"⟩) := by
  decide

set_option maxRecDepth 10000 in
/-- C6: every observation an upload commits either predates the upload or
honours sample_size nonnegativity (so committed sample sizes are never
negative); a present-and-negative sample_size causes the whole batch to be
rejected (via the ck_obs_sample_nonneg check, status 500), and an unparsable
sample_size is rejected at validation (status 400). -/
theorem c6_sample_size_validation :
    (∀ (db : DB) (file : CsvFile),
      ∀ o ∈ (upload_metrics_csv db file).1.metric_observation,
        o ∈ db.metric_observation ∨ (∀ n ∈ o.sample_size, 0 ≤ n)) ∧
    upload_metrics_csv emptyDB csvSampleNegative =
      (emptyDB, .error ⟨500,
        "IntegrityError: new row violates check constraint ck_obs_sample_nonneg"⟩) ∧
    (upload_metrics_csv emptyDB csvSampleUnparsable).2 =
      .error ⟨400, "invalid sample_size values"⟩ := by
  refine ⟨?_, by decide, by decide⟩
  intro db file o
  unfold upload_metrics_csv
  cases hv : validate_upload file with
  | error e => exact fun ho => Or.inl ho
  | ok p =>
    dsimp only
    cases hr : run_ingest_transaction db p with
    | error e => exact fun ho => Or.inl ho
    | ok pr =>
      cases pr with
      | mk db1 rep =>
        exact fun ho => (run_ingest_obs_props db p db1 rep hr).1 o ho

/-- Witness for C6 at a concrete store and observation: the row already stored
before a rejected upload is reported as predating it. -/
theorem c6_witness :
    exObservation ∈ ({ emptyDB with metric_observation := [exObservation] } : DB).metric_observation ∨
      (∀ n ∈ exObservation.sample_size, 0 ≤ n) :=
  c6_sample_size_validation.1 { emptyDB with metric_observation := [exObservation] }
    ⟨[], []⟩ exObservation (by decide)

set_option maxRecDepth 10000 in
/-- Counterexample to C6 as stated: the sample_size cell 2.5 is not a
non-negative integer literal, yet the upload is not rejected — it succeeds and
stores the truncated sample size 2. -/
theorem c6_counterexample :
    (upload_metrics_csv emptyDB csvSampleFrac).2 = .ok ⟨1, 1, 1, 1, 1, 1, 1⟩ ∧
    ((upload_metrics_csv emptyDB csvSampleFrac).1.metric_observation.map
      (fun o => o.sample_size)) = [some 2] := by
  constructor
  · decide
  · decide

end KillerMetrics

